import Mathlib

/-!
Verification of the Agent-Orchestration-Platform orchestration engine.

Shallow embedding of:
- `app/services/copilot_client.py` (`CopilotStudioClient`): the remote agent
  protocol client with watermark-based polling;
- `app/services/task_executor.py` (`TaskExecutor.execute_task`): the task
  state machine with plan-recovery and per-subtask error handling;
- `app/services/agent_pool.py` (`create_agent_pool_class`): the dynamic tool
  factory deriving one callable tool per crew agent;
- `app/services/plugin_task_executor.py` (`PluginTaskExecutor._sanitize_plugin_name`);
- `app/services/crew_kernel_manager.py` (`CrewKernelManager.get_crew_kernel`):
  the per-crew kernel cache with double-checked per-crew asyncio locks,
  modelled as an interleaving transition system.

External library calls (Python `json.loads`, the Semantic Kernel and the
HTTP stack) are modelled as parameters or as input data; everything the
repository itself computes is translated directly from the source.
-/

namespace Orchestration

/-- Python `dict` lookup `d.get(k)` on an insertion-ordered association list. -/
def dictGet? {κ α : Type} [DecidableEq κ] (m : List (κ × α)) (k : κ) : Option α :=
  match m with
  | [] => none
  | p :: ps => if p.1 = k then some p.2 else dictGet? ps k

/-- Python `d[k] = v` on a `dict`: overwrite the existing binding in place,
or append a fresh binding at the end (insertion order preserved). -/
def dictInsert {κ α : Type} [DecidableEq κ] (m : List (κ × α)) (k : κ) (v : α) :
    List (κ × α) :=
  match m with
  | [] => [(k, v)]
  | p :: ps => if p.1 = k then (k, v) :: ps else p :: dictInsert ps k v

/-! ## `app/services/copilot_client.py` — `CopilotStudioClient`

The client state relevant to the claims is the per-conversation-key record
`self.conversations[conv_key] = {"id": ..., "watermark": ...}`.  The HTTP
server is modelled as input data: the status/text of the activity POST and,
for the polling loop of `_get_bot_response`, the response to the k-th GET. -/

/-- One Direct Line activity `{from: {id}, text}`; `text` holds Python's
`activity.get("text", "")`, `fromId` holds `activity.get("from", {}).get("id")`. -/
structure Activity where
  fromId : String
  text : String
deriving DecidableEq

/-- Body of a successful GET on `/conversations/{id}/activities`:
`watermark` is `data.get("watermark")` (absent field → `none`),
`activities` is `data.get("activities", [])`. -/
structure PollData where
  watermark : Option String
  activities : List Activity
deriving DecidableEq

/-- Outcome of one GET poll: HTTP status ≠ 200 with the error text, or a body. -/
inductive PollResult where
  | httpError (status : Nat) (errorText : String)
  | ok (data : PollData)
deriving DecidableEq

/-- Failure modes of `send_message`/`_get_bot_response`: a rejected HTTP
call (`raise Exception(f"Failed to ...")`, the spec's `ProtocolError`) or the
final `raise Exception("No response received from bot after maximum retries")`
(the spec's `NoResponseError`). -/
inductive SendError where
  | protocolError (text : String)
  | noResponse
deriving DecidableEq

/-- Constant `max_retries = 5` (copilot_client.py line 101). -/
def max_retries : Nat := 5

/-- The bot-message filter: activities whose `from.id` is not `"user"`
(copilot_client.py lines 116-119). -/
def botMessages (acts : List Activity) : List Activity :=
  acts.filter (fun a => a.fromId ≠ "user")

/-- The watermark query parameter appended to the polling URL:
`if watermark: url += f"?watermark={watermark}"` — Python truthiness drops
both `None` and the empty string (copilot_client.py lines 97-98). -/
def urlWatermark (w : Option String) : Option String :=
  match w with
  | none => none
  | some s => if s = "" then none else some s

/-- Observable outcome of one `_get_bot_response` call: the returned text or
raised error, the stored watermark after the call, the watermark query
parameter of each GET issued (in order), and how many `asyncio.sleep(1)`
delays ran. -/
structure PollOutcome where
  result : Except SendError String
  watermark : Option String
  requests : List (Option String)
  sleeps : Nat

/-- The polling loop of `_get_bot_response` (copilot_client.py lines 100-129):
`while retry_count < max_retries` with `fuel = max_retries - retry_count`.
Each iteration GETs the (constant) polling URL, raises on HTTP failure,
overwrites the stored watermark with `data.get("watermark")`, returns the
text of the last non-user activity if any, otherwise sleeps 1s and retries;
an exhausted budget raises the no-response error. -/
def pollLoop (polls : Nat → PollResult) (urlWm : Option String) :
    Nat → Nat → Option String → List (Option String) → Nat → PollOutcome
  | 0, _, stored, reqs, sleeps =>
      { result := .error .noResponse, watermark := stored,
        requests := reqs, sleeps := sleeps }
  | fuel + 1, idx, stored, reqs, sleeps =>
      match polls idx with
      | .httpError _ t =>
          { result := .error (.protocolError ("Failed to get bot response: " ++ t)),
            watermark := stored, requests := reqs ++ [urlWm], sleeps := sleeps }
      | .ok data =>
          match (botMessages data.activities).getLast? with
          | some a =>
              { result := .ok a.text, watermark := data.watermark,
                requests := reqs ++ [urlWm], sleeps := sleeps }
          | none =>
              pollLoop polls urlWm fuel (idx + 1) data.watermark
                (reqs ++ [urlWm]) (sleeps + 1)

/-- Model of `CopilotStudioClient._get_bot_response`: reads the stored watermark once
(line 89), builds the polling URL once from it (lines 96-98), then runs the
retry loop.  `stored` is `self.conversations[conv_key]["watermark"]` on
entry; the returned `watermark` field is its value on exit. -/
def get_bot_response (polls : Nat → PollResult) (stored : Option String) :
    PollOutcome :=
  pollLoop polls (urlWatermark stored) max_retries 0 stored [] 0

/-- Model of `CopilotStudioClient.send_message` after the conversation exists: POST the
activity (raising `Failed to send message` unless HTTP 200/201), then poll via
`_get_bot_response` (copilot_client.py lines 75-85). -/
def send_message (postStatus : Nat) (postErrText : String)
    (polls : Nat → PollResult) (stored : Option String) : PollOutcome :=
  if postStatus ≠ 200 ∧ postStatus ≠ 201 then
    { result := .error (.protocolError ("Failed to send message: " ++ postErrText)),
      watermark := stored, requests := [], sleeps := 0 }
  else
    get_bot_response polls stored

/-- A server view in which every poll up to the budget succeeds at the HTTP
level but never contains a non-caller activity. -/
def neverReplies (polls : Nat → PollResult) (d : Nat → PollData) : Prop :=
  ∀ k, k < max_retries → polls k = .ok (d k) ∧ botMessages (d k).activities = []

/-! ## `app/services/task_executor.py` — plan recovery (lines 231-299)

The planner's raw output string is parsed by a chain of attempts:
direct `json.loads`; then, on failure, the contents of a ` ```json ` fence
or, failing that, of a plain ` ``` ` fence; and as a last resort a
single-subtask fallback plan naming the first crew agent, which raises
`IndexError` (fatal) only when the crew has no agents.  Python's
`json.loads` followed by reading the `{"plan": [...]}` shape is an external
library call and is the parameter `jloads`; everything else is translated
from the source. -/

/-- One entry of the planner's JSON `plan` array. -/
structure Subtask where
  subtask : String
  agent_id : String
  reasoning : String
deriving DecidableEq

/-- The parsed planner output `{"plan": [...]}`. -/
structure Plan where
  plan : List Subtask
deriving DecidableEq

/-- Python `str.split(sep)` on character lists, by fuel-bounded structural
recursion (the fuel is the input length, which always suffices for the
nonempty separators used here): splits at each leftmost non-overlapping
occurrence of `sep`. -/
def pySplitAux (sep : List Char) : Nat → List Char → List (List Char)
  | _, [] => [[]]
  | 0, l => [l]
  | fuel + 1, c :: rest =>
      if sep.isPrefixOf (c :: rest) then
        [] :: pySplitAux sep fuel ((c :: rest).drop sep.length)
      else
        match pySplitAux sep fuel rest with
        | [] => [[c]]
        | h :: t => (c :: h) :: t

def pySplit (sep s : List Char) : List (List Char) :=
  pySplitAux sep s.length s

/-- Python `str.strip()`: drop leading and trailing whitespace. -/
def pyStrip (l : List Char) : List Char :=
  ((l.dropWhile Char.isWhitespace).reverse.dropWhile Char.isWhitespace).reverse

/-- Python `sub in s` for a nonempty separator `sub`: at least one
occurrence, i.e. `s.split(sub)` has at least two parts. -/
def pyIn (sub s : String) : Bool :=
  decide (2 ≤ (pySplit sub.data s.data).length)

/-- The markdown fence tags tested by the chain (lines 246 and 250). -/
def jsonFenceTag : String := "```json"

def fenceTag : String := "```"

/-- The expression `result_str.split(tag)[1].split("```")[0].strip()` (lines 247 and 251):
the text between the first occurrence of `tag` and the following ` ``` `,
with surrounding whitespace stripped. -/
def fencePayload (tag s : String) : String :=
  String.mk
    (pyStrip ((pySplit fenceTag.data
      ((pySplit tag.data s.data).getD 1 [])).headD []))

/-- The fenced-code-block recovery attempt (lines 244-256): prefer a
` ```json `-tagged fence, else an untagged fence, else give up. -/
def fenceAttempt (jloads : String → Option Plan) (s : String) : Option Plan :=
  if pyIn jsonFenceTag s then jloads (fencePayload jsonFenceTag s)
  else if pyIn fenceTag s then jloads (fencePayload fenceTag s)
  else none

def fallbackReason : String := "Fallback plan due to JSON parsing error"

/-- The last-resort plan (lines 260-268): one subtask carrying the whole task
description, assigned to `list(self.agents.keys())[0]`; with no agents that
index raises `IndexError`, which escapes to the outer handler. -/
def fallbackPlan (taskDescription : String) (agentIds : List String) :
    Except String Plan :=
  match agentIds with
  | [] => Except.error "list index out of range"
  | a :: _ =>
      Except.ok { plan := [{ subtask := taskDescription, agent_id := a,
                             reasoning := fallbackReason }] }

/-- The full plan-recovery chain of `TaskExecutor.execute_task`
(lines 231-299): direct parse, then fence extraction, then fallback. -/
def parsePlanChain (jloads : String → Option Plan) (s taskDescription : String)
    (agentIds : List String) : Except String Plan :=
  match jloads s with
  | some p => Except.ok p
  | none =>
      match fenceAttempt jloads s with
      | some p => Except.ok p
      | none => fallbackPlan taskDescription agentIds

/-- A concrete stand-in for `json.loads`, used to exercise the chain: it
parses exactly the payload `"PLAN_A"`. -/
def demoPlanA : Plan :=
  { plan := [{ subtask := "collect data", agent_id := "agent-1",
               reasoning := "demo" }] }

def demoJloads : String → Option Plan :=
  fun s => if s = "PLAN_A" then some demoPlanA else none

def demoFenced : String := "```json\nPLAN_A\n```"

/-! ## `app/services/agent_pool.py` — `create_agent_pool_class`
and `app/services/plugin_task_executor.py` — `_sanitize_plugin_name` -/

/-- The fields of `app.models.agent.Agent` used by the factory. -/
structure AgentRec where
  id : Nat
  name : String
  copilotId : String
  description : String
deriving DecidableEq

/-- The fields of `app.models.crew.CrewMember` used by the factory. -/
structure CrewMemberRec where
  agentId : Nat
  role : String
deriving DecidableEq

/-- Python `str.lower()` (the agent names concerned are ASCII). -/
def pyLower (s : String) : String :=
  String.mk (s.data.map Char.toLower)

/-- Python `str.replace(' ', '_')`. -/
def replaceSpaces (s : String) : String :=
  String.mk (s.data.map (fun c => if c = ' ' then '_' else c))

/-- agent_pool.py lines 49 and 94: the tool/method name derived from an
agent name, `"ask_" + agent.name.lower().replace(' ', '_')` — note that no
other character is sanitized. -/
def agentToolName (name : String) : String :=
  "ask_" ++ replaceSpaces (pyLower name)

/-- A character legal inside an identifier: `[A-Za-z0-9_]`. -/
def identChar (c : Char) : Bool :=
  c.isAlpha || c.isDigit || c == '_'

/-- The pattern `^[A-Za-z_][A-Za-z0-9_]*$` as an executable predicate. -/
def isIdentifier (s : String) : Bool :=
  match s.data with
  | [] => false
  | c :: cs => (c.isAlpha || c == '_') && cs.all identChar

/-- The substitution `re.sub(r'[^0-9A-Za-z_]', '_', name)`
(plugin_task_executor.py line 65). -/
def sanitizedCore (s : String) : String :=
  String.mk (s.data.map (fun c => if c.isAlphanum || c == '_' then c else '_'))

/-- Python truthiness plus `sanitized[0].isdigit()`
(plugin_task_executor.py line 68). -/
def startsWithDigit (s : String) : Bool :=
  match s.data with
  | [] => false
  | c :: _ => c.isDigit

/-- Model of `PluginTaskExecutor._sanitize_plugin_name` (lines 53-71): replace every
character outside `[0-9A-Za-z_]` with `_`, then prefix `_` when the result
starts with a digit. -/
def sanitize_plugin_name (s : String) : String :=
  let t := sanitizedCore s
  if startsWithDigit t then "_" ++ t else t

/-- The comprehension `agent_map = {agent.id: agent for agent in agents}`
(agent_pool.py line 27). -/
def buildAgentMap (agents : List AgentRec) : List (Nat × AgentRec) :=
  agents.foldl (fun m a => dictInsert m a.id a) []

/-- The per-member step of the factory loop (agent_pool.py lines 44-106):
skip members whose agent id is not in the map, otherwise
`setattr(AgentPool, method_name, ...)` — which silently replaces an existing
attribute of the same name. -/
def poolStep (agents : List AgentRec) (tbl : List (String × AgentRec))
    (m : CrewMemberRec) : List (String × AgentRec) :=
  match dictGet? (buildAgentMap agents) m.agentId with
  | none => tbl
  | some a => dictInsert tbl (agentToolName a.name) a

/-- Model of `create_agent_pool_class` (agent_pool.py lines 14-108), observed through
the table of generated tool methods: name → the agent bound by the method. -/
def createAgentPoolMethods (members : List CrewMemberRec)
    (agents : List AgentRec) : List (String × AgentRec) :=
  members.foldl (poolStep agents) []

/-- The tool name each member would generate, when its agent resolves. -/
def memberToolName (agents : List AgentRec) (m : CrewMemberRec) :
    Option String :=
  (dictGet? (buildAgentMap agents) m.agentId).map (fun a => agentToolName a.name)

def resolvedToolNames (members : List CrewMemberRec) (agents : List AgentRec) :
    List String :=
  members.filterMap (memberToolName agents)

/-- Two crew members whose agents' names differ but collide after
lowercasing/underscoring. -/
def collideMembers : List CrewMemberRec := [⟨1, "lead"⟩, ⟨2, "support"⟩]

def collideAgents : List AgentRec :=
  [⟨1, "A B", "cop-1", "first agent"⟩, ⟨2, "a b", "cop-2", "second agent"⟩]

/-- A well-behaved two-agent crew for exercising the factory. -/
def demoMembers : List CrewMemberRec := [⟨1, "researcher"⟩, ⟨2, "coder"⟩]

def demoAgents : List AgentRec :=
  [⟨1, "Re Searcher", "cop-1", "finds things"⟩,
   ⟨2, "Coder", "cop-2", "writes code"⟩]

/-! ## `app/services/task_executor.py` — `TaskExecutor.execute_task`

The database is modelled as reliable state (commits do not fail); the
external calls — `setup_kernel`, the planner LLM call, the per-subtask
`CopilotStudioClient.send_message`, and the aggregator LLM call — are the
`ExecEnv` inputs, each an `Except` mirroring "returned value" vs "raised
exception".  The observable task row (status, error, result), the ordered
`task_messages` log, the sequence of assignments to `task.status`, and the
number of planner/aggregator invocations are threaded explicitly. -/

/-- The `TaskStatus` enum (app/models/task.py lines 8-12). -/
inductive PyTaskStatus where
  | pending
  | in_progress
  | completed
  | failed
deriving DecidableEq

/-- A `TaskMessage` row: content, `is_system` flag, optional authoring agent
database id. -/
structure TaskMessage where
  content : String
  isSystem : Bool
  agentDbId : Option Nat
deriving DecidableEq

/-- One collected agent response (task_executor.py lines 364-369). -/
structure SubtaskOutcome where
  agent_name : String
  agent_role : String
  subtask : String
  response : String
deriving DecidableEq

/-- One entry of `self.agents` (task_executor.py lines 35-41): keyed by the
agent's `copilot_id` (unique in the database), carrying the agent record and
the member's role. -/
structure CrewAgentInfo where
  copilotId : String
  name : String
  role : String
  dbId : Nat
deriving DecidableEq

/-- Results of the external calls made by one `execute_task` run. -/
structure ExecEnv where
  setupResult : Except String Unit
  plannerResult : Except String String
  jloads : String → Option Plan
  agentResult : Nat → Subtask → Except String String
  aggregatorResult : Except String String

/-- The observable execution state. -/
structure ExecState where
  status : PyTaskStatus
  error : Option String
  result : Option (String × List SubtaskOutcome)
  messages : List TaskMessage
  statusTrace : List PyTaskStatus
  plannerCalls : Nat
  aggregatorCalls : Nat

def addMessage (st : ExecState) (m : TaskMessage) : ExecState :=
  { st with messages := st.messages ++ [m] }

/-- An assignment to `task.status`, recorded in the trace. -/
def setStatus (st : ExecState) (s : PyTaskStatus) : ExecState :=
  { st with status := s, statusTrace := st.statusTrace ++ [s] }

/-- Model of `TaskExecutor._handle_task_error` (lines 452-461): append the
`Error: ...` system message, set FAILED, record the error text. -/
def handleTaskError (st : ExecState) (e : String) : ExecState :=
  let st := addMessage st ⟨"Error: " ++ e, true, none⟩
  { setStatus st PyTaskStatus.failed with error := some e }

/-- Models `json.dumps(plan, indent=2)` inside the audit message (line 304);
the exact rendering is irrelevant to every claim. -/
def planDump (p : Plan) : String :=
  String.intercalate "; " (p.plan.map (fun s => s.agent_id ++ ":" ++ s.subtask))

def subtaskStartMessage (idx : Nat) (s : String) : String :=
  "Executing subtask " ++ toString (idx + 1) ++ ": " ++ s

def danglingAgentMessage (agentId : String) : String :=
  "Error: Agent with ID " ++ agentId ++ " not found in crew"

def subtaskErrorMessage (agentName e : String) : String :=
  "Error: Error executing subtask with agent " ++ agentName ++ ": " ++ e

/-- The subtask loop (lines 313-373), on the enumerated plan: append the
`Executing subtask ...` message; skip (with a non-fatal error message) a
subtask whose `agent_id` is not in the crew; otherwise invoke the agent —
a raised exception is caught per-subtask and logged, a response is logged
and appended to the outcome list. -/
def execSubtasks (agents : List CrewAgentInfo) (env : ExecEnv) :
    List (Nat × Subtask) → ExecState → List SubtaskOutcome →
    ExecState × List SubtaskOutcome
  | [], st, outs => (st, outs)
  | (idx, sub) :: rest, st, outs =>
      let st := addMessage st ⟨subtaskStartMessage idx sub.subtask, true, none⟩
      match agents.find? (fun a => a.copilotId = sub.agent_id) with
      | none =>
          let st := addMessage st ⟨danglingAgentMessage sub.agent_id, true, none⟩
          execSubtasks agents env rest st outs
      | some info =>
          match env.agentResult idx sub with
          | Except.ok resp =>
              let st := addMessage st ⟨resp, false, some info.dbId⟩
              execSubtasks agents env rest st
                (outs ++ [⟨info.name, info.role, sub.subtask, resp⟩])
          | Except.error e =>
              let st := addMessage st ⟨subtaskErrorMessage info.name e, true, none⟩
              execSubtasks agents env rest st outs

def initialExecState : ExecState :=
  { status := PyTaskStatus.pending, error := none, result := none,
    messages := [], statusTrace := [], plannerCalls := 0, aggregatorCalls := 0 }

/-- The outcome list collected by the loop; by `execSubtasks_outcomes_indep`
it does not depend on the message log threaded through. -/
def collectOutcomes (agents : List CrewAgentInfo) (env : ExecEnv)
    (l : List (Nat × Subtask)) : List SubtaskOutcome :=
  (execSubtasks agents env l initialExecState []).2

def noResponsesError : String := "No agent responses were collected"

/-- Lines 192-208: status := IN_PROGRESS, commit, log `Task started`. -/
def startState (title : String) : ExecState :=
  addMessage (setStatus initialExecState PyTaskStatus.in_progress)
    ⟨"Task started: " ++ title, true, none⟩

/-- Lines 216-229: the planner LLM call (counted for the no-retry claim). -/
def afterPlannerCall (title : String) : ExecState :=
  { startState title with plannerCalls := (startState title).plannerCalls + 1 }

/-- Lines 301-308: log the recovered plan. -/
def afterPlanMessage (title : String) (plan : Plan) : ExecState :=
  addMessage (afterPlannerCall title)
    ⟨"Task Plan Created:\n" ++ planDump plan, true, none⟩

/-- Lines 413-430 when no outcome was collected: FAILED + descriptive error,
then the `Task failed: ...` completion message. -/
def zeroOutcomeFinish (title : String) (st : ExecState) : ExecState :=
  addMessage
    { setStatus st PyTaskStatus.failed with error := some noResponsesError }
    ⟨"Task failed: " ++ title, true, none⟩

/-- Lines 380-397: the aggregator LLM call (counted). -/
def beforeAggregator (st : ExecState) : ExecState :=
  { st with aggregatorCalls := st.aggregatorCalls + 1 }

/-- Lines 399-430 on success: log the result, set COMPLETED with
`result = {summary, details}`, log the `Task completed: ...` message. -/
def completedFinish (title agg : String) (outs : List SubtaskOutcome)
    (st : ExecState) : ExecState :=
  addMessage
    { setStatus (addMessage st ⟨"Task Result:\n" ++ agg, true, none⟩)
        PyTaskStatus.completed with result := some (agg, outs) }
    ⟨"Task completed: " ++ title, true, none⟩

/-- Model of `TaskExecutor.execute_task` (lines 186-440).  The task starts PENDING;
the body sets IN_PROGRESS, logs the start message, runs setup, planner,
plan recovery, the subtask loop and aggregation; zero collected outcomes
drive FAILED without an exception (lines 413-418); any raised exception is
routed through `_handle_task_error` and re-raised (lines 437-440). -/
def execute_task (agents : List CrewAgentInfo) (title desc : String)
    (env : ExecEnv) : ExecState × Except String Unit :=
  match env.setupResult with
  | Except.error e => (handleTaskError (startState title) e, Except.error e)
  | Except.ok _ =>
      match env.plannerResult with
      | Except.error e =>
          (handleTaskError (afterPlannerCall title) e, Except.error e)
      | Except.ok plannerStr =>
          match parsePlanChain env.jloads plannerStr desc
              (agents.map (fun a => a.copilotId)) with
          | Except.error e =>
              (handleTaskError (afterPlannerCall title) e, Except.error e)
          | Except.ok plan =>
              match execSubtasks agents env plan.plan.enum
                  (afterPlanMessage title plan) [] with
              | (st1, []) => (zeroOutcomeFinish title st1, Except.ok ())
              | (st1, o :: os) =>
                  match env.aggregatorResult with
                  | Except.error e =>
                      (handleTaskError (beforeAggregator st1) e, Except.error e)
                  | Except.ok agg =>
                      (completedFinish title agg (o :: os)
                        (beforeAggregator st1), Except.ok ())

/-- A planner failure environment for exercising the error path. -/
def envPlannerBoom : ExecEnv :=
  { setupResult := Except.ok (), plannerResult := Except.error "boom",
    jloads := fun _ => none, agentResult := fun _ _ => Except.error "x",
    aggregatorResult := Except.ok "summary" }

/-- A crew with one agent whose single planned subtask raises a protocol
error, so no outcome is collected. -/
def protoAgent : CrewAgentInfo := ⟨"cop-1", "Solo", "worker", 1⟩

def protoPlan : Plan := ⟨[⟨"do it", "cop-1", "only agent"⟩]⟩

def envProtoError : ExecEnv :=
  { setupResult := Except.ok (),
    plannerResult := Except.ok "PLAN_B",
    jloads := fun s => if s = "PLAN_B" then some protoPlan else none,
    agentResult := fun _ _ =>
      Except.error "ProtocolError: Failed to send message",
    aggregatorResult := Except.ok "summary" }

/-- A crew with one agent and a two-subtask plan whose first subtask names a
non-member agent id. -/
def c8Agents : List CrewAgentInfo := [⟨"cop-9", "Niner", "worker", 9⟩]

def c8Plan : Plan :=
  ⟨[⟨"first", "ghost", "dangling"⟩, ⟨"second", "cop-9", "valid"⟩]⟩

def c8Env : ExecEnv :=
  { setupResult := Except.ok (),
    plannerResult := Except.ok "PLAN_C",
    jloads := fun s => if s = "PLAN_C" then some c8Plan else none,
    agentResult := fun _ _ => Except.ok "resp-9",
    aggregatorResult := Except.ok "final" }

/-! ## `app/services/crew_kernel_manager.py` — `CrewKernelManager.get_crew_kernel`

Concurrency model.  `get_crew_kernel` is an async coroutine; concurrent
callers are asyncio tasks interleaved at await points.  Each task is a
program counter over the labelled atomic regions of the source:

- `start`: the fast-path cache check `if crew_id in self._kernels` (lines
  40-41) and, on a miss, the lock-creation check (lines 43-45) — no await
  separates these statements;
- `waitLock`: blocked on `async with self._kernel_locks[crew_id]` (line 48);
  acquisition succeeds only while the lock is unheld;
- `lockedCheck`: holding the lock, the re-check `if crew_id in self._kernels`
  (lines 49-51) — return the cached kernel (releasing the lock) on a hit;
- `building`: holding the lock, `await self._create_kernel_for_crew` followed
  by `self._kernels[crew_id] = kernel` (lines 53-56), logged in `builds`;
  build results are numbered by a fresh counter so distinct builds are
  distinct kernel instances;
- `done k`: returned kernel `k`.

The scheduler is an arbitrary list of task indices; a scheduled task that is
finished or blocked stutters.  This interleaves at every labelled step — a
superset of asyncio's actual suspension points — so the properties proved
hold a fortiori for the real cooperative scheduler. -/

inductive KPC where
  | start
  | waitLock
  | lockedCheck
  | building
  | done (kernel : Nat)
deriving DecidableEq

structure KTask where
  crew : Nat
  pc : KPC
deriving DecidableEq

/-- Registry + scheduler state.  `tasks` maps a task index to its state
(`none` for indices with no caller). -/
structure RegState where
  kernels : List (Nat × Nat)
  locks : List (Nat × Option Nat)
  nextKernel : Nat
  builds : List Nat
  tasks : Nat → Option KTask

def setTaskPC (cfg : RegState) (tid : Nat) (crew : Nat) (pc : KPC) : RegState :=
  { cfg with tasks := fun tid' => if tid' = tid then some ⟨crew, pc⟩ else cfg.tasks tid' }

/-- One atomic step of task `tid` (stutter when finished or blocked). -/
def kstep (cfg : RegState) (tid : Nat) : RegState :=
  match cfg.tasks tid with
  | none => cfg
  | some t =>
    match t.pc with
    | KPC.done _ => cfg
    | KPC.start =>
        match dictGet? cfg.kernels t.crew with
        | some k => setTaskPC cfg tid t.crew (KPC.done k)
        | none =>
            match dictGet? cfg.locks t.crew with
            | none =>
                setTaskPC { cfg with locks := dictInsert cfg.locks t.crew none }
                  tid t.crew KPC.waitLock
            | some _ => setTaskPC cfg tid t.crew KPC.waitLock
    | KPC.waitLock =>
        match dictGet? cfg.locks t.crew with
        | some none =>
            setTaskPC { cfg with locks := dictInsert cfg.locks t.crew (some tid) }
              tid t.crew KPC.lockedCheck
        | _ => cfg
    | KPC.lockedCheck =>
        match dictGet? cfg.kernels t.crew with
        | some k =>
            setTaskPC { cfg with locks := dictInsert cfg.locks t.crew none }
              tid t.crew (KPC.done k)
        | none => setTaskPC cfg tid t.crew KPC.building
    | KPC.building =>
        setTaskPC
          { cfg with
            kernels := dictInsert cfg.kernels t.crew cfg.nextKernel,
            locks := dictInsert cfg.locks t.crew none,
            nextKernel := cfg.nextKernel + 1,
            builds := cfg.builds ++ [t.crew] }
          tid t.crew (KPC.done cfg.nextKernel)

def krun (cfg : RegState) (sched : List Nat) : RegState :=
  sched.foldl kstep cfg

/-- Initial configuration: empty caches and one `get_crew_kernel(c)` caller
per entry of `crews`. -/
def kinit (crews : List Nat) : RegState :=
  { kernels := [], locks := [], nextKernel := 0, builds := [],
    tasks := fun tid => (crews.get? tid).map (fun c => ⟨c, KPC.start⟩) }

/-- The registry invariant: build count matches the cache, finished callers
hold the cached kernel, the locked region is owned, lock owners are
same-crew tasks inside the region, a building task sees an empty cache slot,
and a waiting task waits on an existing lock. -/
def KInv (cfg : RegState) : Prop :=
  (∀ c : Nat, cfg.builds.count c =
      (if (dictGet? cfg.kernels c).isSome then 1 else 0)) ∧
  (∀ tid t k, cfg.tasks tid = some t → t.pc = KPC.done k →
    dictGet? cfg.kernels t.crew = some k) ∧
  (∀ tid t, cfg.tasks tid = some t →
    (t.pc = KPC.lockedCheck ∨ t.pc = KPC.building) →
    dictGet? cfg.locks t.crew = some (some tid)) ∧
  (∀ c tid, dictGet? cfg.locks c = some (some tid) →
    ∃ t, cfg.tasks tid = some t ∧ t.crew = c ∧
      (t.pc = KPC.lockedCheck ∨ t.pc = KPC.building)) ∧
  (∀ tid t, cfg.tasks tid = some t → t.pc = KPC.building →
    dictGet? cfg.kernels t.crew = none) ∧
  (∀ tid t, cfg.tasks tid = some t → t.pc = KPC.waitLock →
    (dictGet? cfg.locks t.crew).isSome)

theorem dictGet?_dictInsert_self {κ α : Type} [DecidableEq κ]
    (m : List (κ × α)) (k : κ) (v : α) :
    dictGet? (dictInsert m k v) k = some v := by
  induction m with
  | nil => simp [dictGet?, dictInsert]
  | cons p ps ih =>
    by_cases hp : p.1 = k
    · simp [dictGet?, dictInsert, hp]
    · simp [dictGet?, dictInsert, hp, ih]

theorem dictGet?_dictInsert_ne {κ α : Type} [DecidableEq κ]
    (m : List (κ × α)) (k k' : κ) (v : α) (hne : k' ≠ k) :
    dictGet? (dictInsert m k v) k' = dictGet? m k' := by
  induction m with
  | nil => simp [dictGet?, dictInsert, Ne.symm hne]
  | cons p ps ih =>
    by_cases hp : p.1 = k
    · simp [dictGet?, dictInsert, hp, Ne.symm hne]
    · by_cases hp' : p.1 = k'
      · simp [dictGet?, dictInsert, hp, hp', hne, Ne.symm hne]
      · simp [dictGet?, dictInsert, hp, hp', ih]

theorem pollLoop_noResponse (polls : Nat → PollResult) (d : Nat → PollData)
    (u : Option String) :
    ∀ (fuel idx : Nat) (stored : Option String) (reqs : List (Option String))
      (sleeps : Nat),
      (∀ k, idx ≤ k → k < idx + fuel →
        polls k = .ok (d k) ∧ botMessages (d k).activities = []) →
      ∃ w, pollLoop polls u fuel idx stored reqs sleeps =
        { result := .error .noResponse, watermark := w,
          requests := reqs ++ List.replicate fuel u, sleeps := sleeps + fuel } := by
  intro fuel
  induction fuel with
  | zero =>
    intro idx stored reqs sleeps _
    exact ⟨stored, by simp [pollLoop]⟩
  | succ n ih =>
    intro idx stored reqs sleeps h
    have h0 := h idx (Nat.le_refl _) (by omega)
    obtain ⟨w, hw⟩ := ih (idx + 1) (d idx).watermark (reqs ++ [u]) (sleeps + 1)
      (fun k hk1 hk2 => h k (by omega) (by omega))
    refine ⟨w, ?_⟩
    rw [pollLoop, h0.1]
    simp only [h0.2, List.getLast?]
    rw [hw]
    simp [List.replicate_succ]
    omega

theorem pollLoop_requests_mem (polls : Nat → PollResult) (u : Option String) :
    ∀ (fuel idx : Nat) (stored : Option String) (reqs : List (Option String))
      (sleeps : Nat) (r : Option String),
      r ∈ (pollLoop polls u fuel idx stored reqs sleeps).requests →
      r ∈ reqs ∨ r = u := by
  intro fuel
  induction fuel with
  | zero =>
    intro idx stored reqs sleeps r h
    simp [pollLoop] at h
    exact Or.inl h
  | succ n ih =>
    intro idx stored reqs sleeps r h
    rw [pollLoop] at h
    cases hp : polls idx with
    | httpError s t =>
      rw [hp] at h
      simp at h
      tauto
    | ok data =>
      rw [hp] at h
      dsimp only at h
      cases hb : (botMessages data.activities).getLast? with
      | some a =>
        rw [hb] at h
        simp at h
        tauto
      | none =>
        rw [hb] at h
        have h' := ih (idx + 1) data.watermark (reqs ++ [u]) (sleeps + 1) r h
        rcases h' with h' | h'
        · simp at h'
          tauto
        · exact Or.inr h'

theorem pollLoop_watermark_last (polls : Nat → PollResult) (d : Nat → PollData)
    (u : Option String) :
    ∀ (fuel idx : Nat) (stored : Option String) (reqs : List (Option String))
      (sleeps : Nat),
      0 < fuel →
      (∀ k, idx ≤ k → k < idx + fuel →
        polls k = .ok (d k) ∧ botMessages (d k).activities = []) →
      (pollLoop polls u fuel idx stored reqs sleeps).watermark =
        (d (idx + fuel - 1)).watermark := by
  intro fuel
  induction fuel with
  | zero => intro idx stored reqs sleeps h; omega
  | succ n ih =>
    intro idx stored reqs sleeps _ h
    have h0 := h idx (Nat.le_refl _) (by omega)
    rw [pollLoop, h0.1]
    simp only [h0.2, List.getLast?]
    cases n with
    | zero => simp [pollLoop]
    | succ m =>
      rw [ih (idx + 1) (d idx).watermark (reqs ++ [u]) (sleeps + 1) (by omega)
        (fun k hk1 hk2 => h k (by omega) (by omega))]
      congr 2
      omega

/-- Claim C3: when the POST is accepted but the server never emits a
non-caller activity, `send_message` performs exactly `max_retries = 5` polls,
with a 1-second delay after each, and then fails with the no-response error
(the spec's `NoResponseError`) — not earlier, not later, never hanging. -/
theorem send_message_retry_budget (postStatus : Nat) (postErrText : String)
    (polls : Nat → PollResult) (d : Nat → PollData) (stored : Option String)
    (hpost : postStatus = 200 ∨ postStatus = 201)
    (hnever : neverReplies polls d) :
    (send_message postStatus postErrText polls stored).result =
        Except.error SendError.noResponse ∧
    (send_message postStatus postErrText polls stored).requests.length = max_retries ∧
    (send_message postStatus postErrText polls stored).sleeps = max_retries ∧
    max_retries = 5 := by
  have hps : ¬(postStatus ≠ 200 ∧ postStatus ≠ 201) := by
    rcases hpost with h | h <;> simp [h]
  obtain ⟨w, hw⟩ := pollLoop_noResponse polls d (urlWatermark stored) max_retries 0
    stored [] 0 (fun k hk1 hk2 => hnever k (by omega))
  rw [send_message, if_neg hps]
  rw [get_bot_response, hw]
  simp [max_retries]

theorem send_message_retry_budget_witness :
    (send_message 200 "" (fun _ => PollResult.ok ⟨none, []⟩) none).result =
        Except.error SendError.noResponse ∧
    (send_message 200 "" (fun _ => PollResult.ok ⟨none, []⟩) none).requests.length =
        max_retries ∧
    (send_message 200 "" (fun _ => PollResult.ok ⟨none, []⟩) none).sleeps =
        max_retries ∧
    max_retries = 5 :=
  send_message_retry_budget 200 "" (fun _ => PollResult.ok ⟨none, []⟩)
    (fun _ => ⟨none, []⟩) none (Or.inl rfl) (fun _ _ => ⟨rfl, rfl⟩)

/-- Claim C10: within one `send_message` call the polling URL, including its
watermark parameter, is computed once from the watermark stored before the
first poll, so every poll of that call queries with that same value; the
watermark stored at the end of the call is the one a subsequent
`send_message` on the same conversation key polls with. -/
theorem polling_url_computed_once (polls₁ polls₂ : Nat → PollResult)
    (stored : Option String) :
    ((get_bot_response polls₁ stored).requests.all
        (fun r => r == urlWatermark stored)) = true ∧
    ((get_bot_response polls₂ (get_bot_response polls₁ stored).watermark).requests.all
        (fun r => r == urlWatermark (get_bot_response polls₁ stored).watermark)) =
      true := by
  constructor
  · rw [List.all_eq_true]
    intro r hr
    have := pollLoop_requests_mem polls₁ (urlWatermark stored) max_retries 0 stored
      [] 0 r hr
    simp at this
    simp [this]
  · rw [List.all_eq_true]
    intro r hr
    have := pollLoop_requests_mem polls₂
      (urlWatermark (get_bot_response polls₁ stored).watermark) max_retries 0
      (get_bot_response polls₁ stored).watermark [] 0 r hr
    simp at this
    simp [this]

/-- Claim C9 counterexample: the stored watermark is not monotone and can be
erased.  A session whose stored watermark is `"5"` polls a server whose
response carries no `watermark` field; after the (completed) call the stored
watermark is `None` — erased, not advanced. -/
theorem watermark_erased_cex :
    (get_bot_response (fun _ => PollResult.ok ⟨none, []⟩) (some "5")).watermark =
        none ∧
    (some "5" : Option String) ≠ none := by
  constructor
  · rfl
  · simp

/-- Claim C9 amended: each HTTP-successful poll overwrites the stored
watermark with the `watermark` field of that poll's response — the last such
field wins, absent fields erase the cursor — and an HTTP-failed first poll
leaves it unchanged; monotone advancement is inherited from the server, not
enforced by the client. -/
theorem watermark_overwritten_per_poll (polls : Nat → PollResult)
    (d : Nat → PollData) (d₀ : PollData) (a : Activity) (s : Nat) (t : String)
    (stored : Option String) :
    (neverReplies polls d →
      (get_bot_response polls stored).watermark =
        (d (max_retries - 1)).watermark) ∧
    (polls 0 = PollResult.ok d₀ → (botMessages d₀.activities).getLast? = some a →
      (get_bot_response polls stored).watermark = d₀.watermark) ∧
    (polls 0 = PollResult.httpError s t →
      (get_bot_response polls stored).watermark = stored) := by
  refine ⟨?_, ?_, ?_⟩
  · intro hnever
    rw [get_bot_response,
      pollLoop_watermark_last polls d (urlWatermark stored) max_retries 0 stored []
        0 (by simp [max_retries]) (fun k hk1 hk2 => hnever k (by omega))]
    norm_num
  · intro h0 hb
    rw [get_bot_response, show max_retries = 4 + 1 from rfl, pollLoop, h0]
    dsimp only
    rw [hb]
  · intro h0
    rw [get_bot_response, show max_retries = 4 + 1 from rfl, pollLoop, h0]

theorem watermark_overwritten_per_poll_witness :
    (get_bot_response (fun _ => PollResult.ok ⟨some "9", []⟩) none).watermark =
      some "9" :=
  (watermark_overwritten_per_poll (fun _ => PollResult.ok ⟨some "9", []⟩)
    (fun _ => ⟨some "9", []⟩) ⟨some "9", []⟩ ⟨"bot", ""⟩ 0 "" none).1
    (fun _ _ => ⟨rfl, rfl⟩)

/-- Claim C2: the plan-recovery chain is a deterministic total function;
when direct parsing fails, a parseable fenced payload (with or without the
`json` tag) becomes the plan verbatim; when that also fails, the plan is the
single-subtask fallback naming the first crew agent; with at least one agent
the chain always produces a plan, and a fatal parse error implies the crew
has no agents. -/
theorem plan_recovery_chain (jloads : String → Option Plan)
    (s desc : String) (agentIds : List String) (p : Plan) (a : String)
    (rest : List String) :
    (jloads s = none → pyIn jsonFenceTag s = true →
      jloads (fencePayload jsonFenceTag s) = some p →
      parsePlanChain jloads s desc agentIds = Except.ok p) ∧
    (jloads s = none → pyIn jsonFenceTag s = false → pyIn fenceTag s = true →
      jloads (fencePayload fenceTag s) = some p →
      parsePlanChain jloads s desc agentIds = Except.ok p) ∧
    (jloads s = none → fenceAttempt jloads s = none → agentIds = a :: rest →
      parsePlanChain jloads s desc agentIds =
        Except.ok { plan := [{ subtask := desc, agent_id := a,
                               reasoning := fallbackReason }] }) ∧
    (agentIds ≠ [] → ∃ q, parsePlanChain jloads s desc agentIds = Except.ok q) ∧
    (∀ e, parsePlanChain jloads s desc agentIds = Except.error e →
      agentIds = []) := by
  refine ⟨?_, ?_, ?_, ?_, ?_⟩
  · intro h1 h2 h3
    simp [parsePlanChain, h1, fenceAttempt, h2, h3]
  · intro h1 h2 h2' h3
    simp [parsePlanChain, h1, fenceAttempt, h2, h2', h3]
  · intro h1 hfa hag
    simp [parsePlanChain, h1, hfa, fallbackPlan, hag]
  · intro hne
    cases hj : jloads s with
    | some q => exact ⟨q, by simp [parsePlanChain, hj]⟩
    | none =>
      cases hfa : fenceAttempt jloads s with
      | some q => exact ⟨q, by simp [parsePlanChain, hj, hfa]⟩
      | none =>
        cases hag : agentIds with
        | nil => exact absurd hag hne
        | cons b bs =>
          exact ⟨{ plan := [{ subtask := desc, agent_id := b,
                              reasoning := fallbackReason }] },
            by simp [parsePlanChain, hj, hfa, fallbackPlan]⟩
  · intro e he
    cases hj : jloads s with
    | some q => simp [parsePlanChain, hj] at he
    | none =>
      cases hfa : fenceAttempt jloads s with
      | some q => simp [parsePlanChain, hj, hfa] at he
      | none =>
        cases hag : agentIds with
        | nil => rfl
        | cons b bs =>
          rw [hag] at he
          simp [parsePlanChain, hj, hfa, fallbackPlan] at he

theorem plan_recovery_chain_witness :
    parsePlanChain demoJloads demoFenced "task" ["agent-1"] =
      Except.ok demoPlanA :=
  (plan_recovery_chain demoJloads demoFenced "task" ["agent-1"] demoPlanA
    "agent-1" []).1 (by decide) (by decide) (by decide)

theorem mem_dictInsert {κ α : Type} [DecidableEq κ] (m : List (κ × α))
    (k : κ) (v : α) (p : κ × α) (hp : p ∈ dictInsert m k v) :
    p ∈ m ∨ p = (k, v) := by
  induction m with
  | nil => exact Or.inr (by simpa [dictInsert] using hp)
  | cons q qs ih =>
    by_cases hq : q.1 = k
    · simp only [dictInsert, if_pos hq, List.mem_cons] at hp
      rcases hp with h | h
      · exact Or.inr h
      · exact Or.inl (List.mem_cons_of_mem _ h)
    · simp only [dictInsert, if_neg hq, List.mem_cons] at hp
      rcases hp with h | h
      · exact Or.inl (h ▸ List.mem_cons_self _ _)
      · rcases ih h with h' | h'
        · exact Or.inl (List.mem_cons_of_mem _ h')
        · exact Or.inr h'

theorem dictInsert_length_of_none {κ α : Type} [DecidableEq κ]
    (m : List (κ × α)) (k : κ) (v : α) (h : dictGet? m k = none) :
    (dictInsert m k v).length = m.length + 1 := by
  induction m with
  | nil => simp [dictInsert]
  | cons q qs ih =>
    by_cases hq : q.1 = k
    · simp [dictGet?, hq] at h
    · simp only [dictGet?, if_neg hq] at h
      simp [dictInsert, hq, ih h]

theorem foldl_poolStep_preserve (agents : List AgentRec) :
    ∀ (members : List CrewMemberRec) (tbl : List (String × AgentRec))
      (k : String) (v : AgentRec),
      dictGet? tbl k = some v → k ∉ resolvedToolNames members agents →
      dictGet? (members.foldl (poolStep agents) tbl) k = some v := by
  intro members
  induction members with
  | nil => intro tbl k v hk _; simpa using hk
  | cons m ms ih =>
    intro tbl k v hk hnot
    rw [List.foldl_cons]
    cases hr : dictGet? (buildAgentMap agents) m.agentId with
    | none =>
      rw [poolStep, hr]
      exact ih tbl k v hk
        (by simpa [resolvedToolNames, memberToolName, hr] using hnot)
    | some a =>
      have hcons : resolvedToolNames (m :: ms) agents =
          agentToolName a.name :: resolvedToolNames ms agents := by
        simp [resolvedToolNames, memberToolName, List.filterMap_cons, hr]
      rw [hcons, List.mem_cons, not_or] at hnot
      rw [poolStep, hr]
      exact ih _ k v
        (by rw [dictGet?_dictInsert_ne _ _ _ _ hnot.1]; exact hk) hnot.2

theorem poolTable_names (agents : List AgentRec) :
    ∀ (members : List CrewMemberRec) (tbl : List (String × AgentRec)),
      (∀ p ∈ tbl, p.1 = agentToolName p.2.name) →
      ∀ p ∈ members.foldl (poolStep agents) tbl, p.1 = agentToolName p.2.name := by
  intro members
  induction members with
  | nil => intro tbl h; simpa using h
  | cons m ms ih =>
    intro tbl h
    rw [List.foldl_cons]
    cases hr : dictGet? (buildAgentMap agents) m.agentId with
    | none =>
      rw [poolStep, hr]
      exact ih tbl h
    | some a =>
      rw [poolStep, hr]
      refine ih _ ?_
      intro p hp
      rcases mem_dictInsert _ _ _ p hp with h' | h'
      · exact h p h'
      · rw [h']

theorem poolTable_complete (agents : List AgentRec) :
    ∀ (members : List CrewMemberRec) (tbl : List (String × AgentRec)),
      (∀ m ∈ members, (dictGet? (buildAgentMap agents) m.agentId).isSome) →
      (resolvedToolNames members agents).Nodup →
      (∀ n ∈ resolvedToolNames members agents, dictGet? tbl n = none) →
      (members.foldl (poolStep agents) tbl).length = tbl.length + members.length ∧
      (∀ m a, m ∈ members → dictGet? (buildAgentMap agents) m.agentId = some a →
        dictGet? (members.foldl (poolStep agents) tbl) (agentToolName a.name) =
          some a) := by
  intro members
  induction members with
  | nil =>
    intro tbl _ _ _
    constructor
    · simp
    · intro m a hm; simp at hm
  | cons m ms ih =>
    intro tbl hvalid hnodup hfresh
    obtain ⟨a, hr⟩ := Option.isSome_iff_exists.mp (hvalid m (List.mem_cons_self _ _))
    have hnames : resolvedToolNames (m :: ms) agents =
        agentToolName a.name :: resolvedToolNames ms agents := by
      simp [resolvedToolNames, memberToolName, List.filterMap_cons, hr]
    rw [hnames] at hnodup hfresh
    have hfreshHead : dictGet? tbl (agentToolName a.name) = none :=
      hfresh _ (List.mem_cons_self _ _)
    have hfreshTail : ∀ n ∈ resolvedToolNames ms agents,
        dictGet? (dictInsert tbl (agentToolName a.name) a) n = none := by
      intro n hn
      have hne : n ≠ agentToolName a.name := by
        intro h
        exact (List.nodup_cons.mp hnodup).1 (h ▸ hn)
      rw [dictGet?_dictInsert_ne _ _ _ _ hne]
      exact hfresh n (List.mem_cons_of_mem _ hn)
    have ihm := ih (dictInsert tbl (agentToolName a.name) a)
      (fun m' hm' => hvalid m' (List.mem_cons_of_mem _ hm'))
      (List.nodup_cons.mp hnodup).2 hfreshTail
    constructor
    · rw [List.foldl_cons, poolStep, hr, ihm.1,
        dictInsert_length_of_none tbl _ a hfreshHead, List.length_cons]
      omega
    · intro m' a' hm' hr'
      rcases List.mem_cons.mp hm' with h | h
      · subst h
        rw [hr] at hr'
        injection hr' with hr'
        subst hr'
        rw [List.foldl_cons, poolStep, hr]
        exact foldl_poolStep_preserve agents ms _ _ _
          (dictGet?_dictInsert_self tbl _ a)
          (by
            intro hmem
            exact (List.nodup_cons.mp hnodup).1 hmem)
      · rw [List.foldl_cons, poolStep, hr]
        exact ihm.2 m' a' h hr'

theorem sanitizedChar_identChar (c : Char) :
    identChar (if c.isAlphanum || c == '_' then c else '_') = true := by
  by_cases h : (c.isAlphanum || c == '_') = true
  · rw [if_pos h]
    simpa [identChar, Char.isAlphanum] using h
  · rw [if_neg h]
    decide

theorem identChar_head (d : Char) (h1 : identChar d = true)
    (h2 : d.isDigit = false) : (d.isAlpha || d == '_') = true := by
  simpa [identChar, h2] using h1

/-- Claim C6 counterexample: the factory's tool name is not sanitized — the
agent name `"Data Analyst #1"` yields `"ask_data_analyst_#1"`, which contains
`'#'` and does not match `^[A-Za-z_][A-Za-z0-9_]*$`. -/
theorem tool_name_not_identifier_cex :
    agentToolName "Data Analyst #1" = "ask_data_analyst_#1" ∧
    isIdentifier (agentToolName "Data Analyst #1") = false := by
  decide

/-- Claim C6 amended: the factory's per-agent tool name is
`"ask_" + lowercase(name) with spaces → underscores`, with no further
sanitization, and need not match the identifier pattern; it is the separate
plugin-name sanitizer `_sanitize_plugin_name` that maps every non-empty name
to a string matching `^[A-Za-z_][A-Za-z0-9_]*$`, prefixing `_` whenever the
character-sanitized form starts with a digit. -/
theorem sanitize_plugin_name_identifier (s : String) (h : s ≠ "") :
    isIdentifier (sanitize_plugin_name s) = true ∧
    (startsWithDigit (sanitizedCore s) = true →
      sanitize_plugin_name s = "_" ++ sanitizedCore s) := by
  constructor
  · obtain ⟨l⟩ := s
    cases l with
    | nil => exact absurd rfl h
    | cons c cs =>
      have hall : ∀ d ∈ cs.map
          (fun c => if c.isAlphanum || c == '_' then c else '_'),
          identChar d = true := by
        intro d hdm
        obtain ⟨e, _, he⟩ := List.mem_map.mp hdm
        rw [← he]
        exact sanitizedChar_identChar e
      have hsw : startsWithDigit (sanitizedCore ⟨c :: cs⟩) =
          (if c.isAlphanum || c == '_' then c else '_').isDigit := rfl
      cases hfc : (if c.isAlphanum || c == '_' then c else '_').isDigit with
      | true =>
        have hs : sanitize_plugin_name ⟨c :: cs⟩ =
            "_" ++ sanitizedCore ⟨c :: cs⟩ := by
          show (if startsWithDigit (sanitizedCore ⟨c :: cs⟩) then
              "_" ++ sanitizedCore ⟨c :: cs⟩ else sanitizedCore ⟨c :: cs⟩) =
            "_" ++ sanitizedCore ⟨c :: cs⟩
          rw [hsw, hfc]
          rfl
        rw [hs,
          show ("_" ++ sanitizedCore ⟨c :: cs⟩) =
            String.mk ('_' :: (if c.isAlphanum || c == '_' then c else '_') ::
              cs.map (fun c => if c.isAlphanum || c == '_' then c else '_'))
          from rfl,
          show ∀ x xs, isIdentifier (String.mk (x :: xs)) =
            ((x.isAlpha || x == '_') && xs.all identChar) from fun _ _ => rfl]
        simp only [Bool.and_eq_true, List.all_eq_true]
        refine ⟨by decide, ?_⟩
        intro d hdm
        rcases List.mem_cons.mp hdm with h' | h'
        · rw [h']
          exact sanitizedChar_identChar c
        · exact hall d h'
      | false =>
        have hs : sanitize_plugin_name ⟨c :: cs⟩ = sanitizedCore ⟨c :: cs⟩ := by
          show (if startsWithDigit (sanitizedCore ⟨c :: cs⟩) then
              "_" ++ sanitizedCore ⟨c :: cs⟩ else sanitizedCore ⟨c :: cs⟩) =
            sanitizedCore ⟨c :: cs⟩
          rw [hsw, hfc]
          rfl
        rw [hs,
          show sanitizedCore ⟨c :: cs⟩ =
            String.mk ((if c.isAlphanum || c == '_' then c else '_') ::
              cs.map (fun c => if c.isAlphanum || c == '_' then c else '_'))
          from rfl,
          show ∀ x xs, isIdentifier (String.mk (x :: xs)) =
            ((x.isAlpha || x == '_') && xs.all identChar) from fun _ _ => rfl]
        simp only [Bool.and_eq_true, List.all_eq_true]
        exact ⟨identChar_head _ (sanitizedChar_identChar c) hfc, hall⟩
  · intro hd
    simp [sanitize_plugin_name, hd]

theorem sanitize_plugin_name_identifier_witness :
    isIdentifier (sanitize_plugin_name "1 Data Analyst #1") = true ∧
    sanitize_plugin_name "1 Data Analyst #1" =
      "_" ++ sanitizedCore "1 Data Analyst #1" :=
  ⟨(sanitize_plugin_name_identifier "1 Data Analyst #1" (by decide)).1,
   (sanitize_plugin_name_identifier "1 Data Analyst #1" (by decide)).2
     (by decide)⟩

/-- Claim C7 counterexample: the factory does not fail fast on a tool-name
collision — with two agents named `"A B"` and `"a b"` (both mapping to
`"ask_a_b"`) it returns normally with a single tool, the later agent having
silently overwritten the earlier one. -/
theorem tool_collision_overwrites_cex :
    collideMembers.length = 2 ∧
    (createAgentPoolMethods collideMembers collideAgents).length = 1 ∧
    dictGet? (createAgentPoolMethods collideMembers collideAgents) "ask_a_b" =
      some ⟨2, "a b", "cop-2", "second agent"⟩ := by
  decide

/-- Claim C7 amended: every key of the generated tool table obeys
`toolName = "ask_" + lowercase(agentName) with spaces → underscores`; when
the members' tool names are pairwise distinct the factory yields exactly one
tool per member, each resolving to its agent; when two members collide the
factory does not fail — the later member's agent silently replaces the
earlier binding. -/
theorem agent_pool_tool_per_agent (members ms : List CrewMemberRec)
    (m : CrewMemberRec) (agents : List AgentRec) (lastAgent : AgentRec)
    (hvalid : ∀ m' ∈ members, (dictGet? (buildAgentMap agents) m'.agentId).isSome)
    (hnodup : (resolvedToolNames members agents).Nodup)
    (hlast : dictGet? (buildAgentMap agents) m.agentId = some lastAgent) :
    (createAgentPoolMethods members agents).length = members.length ∧
    (∀ m' a, m' ∈ members → dictGet? (buildAgentMap agents) m'.agentId = some a →
      dictGet? (createAgentPoolMethods members agents) (agentToolName a.name) =
        some a) ∧
    (∀ p ∈ createAgentPoolMethods members agents,
      p.1 = agentToolName p.2.name) ∧
    dictGet? (createAgentPoolMethods (ms ++ [m]) agents)
        (agentToolName lastAgent.name) = some lastAgent := by
  refine ⟨?_, ?_, ?_, ?_⟩
  · have := (poolTable_complete agents members [] hvalid hnodup
      (fun n _ => rfl)).1
    simpa [createAgentPoolMethods] using this
  · intro m' a hm' ha
    exact (poolTable_complete agents members [] hvalid hnodup
      (fun n _ => rfl)).2 m' a hm' ha
  · exact poolTable_names agents members [] (by intro p hp; simp at hp)
  · rw [createAgentPoolMethods, List.foldl_append, List.foldl_cons,
      List.foldl_nil, poolStep, hlast]
    exact dictGet?_dictInsert_self _ _ _

theorem agent_pool_tool_per_agent_witness :
    (createAgentPoolMethods demoMembers demoAgents).length =
        demoMembers.length ∧
    dictGet? (createAgentPoolMethods demoMembers demoAgents)
        (agentToolName "Re Searcher") =
      some ⟨1, "Re Searcher", "cop-1", "finds things"⟩ ∧
    dictGet? (createAgentPoolMethods ([⟨1, "lead"⟩] ++ [⟨2, "support"⟩])
        collideAgents) (agentToolName "a b") =
      some ⟨2, "a b", "cop-2", "second agent"⟩ :=
  ⟨(agent_pool_tool_per_agent demoMembers [] ⟨2, "coder"⟩ demoAgents
      ⟨2, "Coder", "cop-2", "writes code"⟩ (by decide) (by decide)
      (by decide)).1,
   (agent_pool_tool_per_agent demoMembers [] ⟨2, "coder"⟩ demoAgents
      ⟨2, "Coder", "cop-2", "writes code"⟩ (by decide) (by decide)
      (by decide)).2.1 ⟨1, "researcher"⟩
      ⟨1, "Re Searcher", "cop-1", "finds things"⟩ (by decide) (by decide),
   (agent_pool_tool_per_agent [] [⟨1, "lead"⟩] ⟨2, "support"⟩ collideAgents
      ⟨2, "a b", "cop-2", "second agent"⟩
      (by decide) (by decide) (by decide)).2.2.2⟩

theorem execSubtasks_messages_mono (agents : List CrewAgentInfo) (env : ExecEnv) :
    ∀ (l : List (Nat × Subtask)) (st : ExecState) (outs : List SubtaskOutcome)
      (m : TaskMessage), m ∈ st.messages →
      m ∈ (execSubtasks agents env l st outs).1.messages := by
  intro l
  induction l with
  | nil => intro st outs m hm; simpa [execSubtasks] using hm
  | cons p rest ih =>
    intro st outs m hm
    obtain ⟨idx, sub⟩ := p
    rw [execSubtasks]
    cases hf : agents.find? (fun a => a.copilotId = sub.agent_id) with
    | none =>
      exact ih _ _ m (by simp [addMessage, hm])
    | some info =>
      cases hr : env.agentResult idx sub with
      | ok resp => exact ih _ _ m (by simp [addMessage, hm])
      | error e => exact ih _ _ m (by simp [addMessage, hm])

theorem execSubtasks_start_message (agents : List CrewAgentInfo) (env : ExecEnv) :
    ∀ (l : List (Nat × Subtask)) (st : ExecState) (outs : List SubtaskOutcome)
      (j : Nat) (s' : Subtask), (j, s') ∈ l →
      (⟨subtaskStartMessage j s'.subtask, true, none⟩ : TaskMessage) ∈
        (execSubtasks agents env l st outs).1.messages := by
  intro l
  induction l with
  | nil => intro st outs j s' hm; simp at hm
  | cons p rest ih =>
    intro st outs j s' hm
    obtain ⟨idx, sub⟩ := p
    rcases List.mem_cons.mp hm with h | h
    · have h1 : j = idx := congrArg Prod.fst h
      have h2 : s' = sub := congrArg Prod.snd h
      rw [h1, h2, execSubtasks]
      cases hf : agents.find? (fun a => a.copilotId = sub.agent_id) with
      | none =>
        exact execSubtasks_messages_mono agents env _ _ _ _ (by simp [addMessage])
      | some info =>
        cases hr : env.agentResult idx sub with
        | ok resp =>
          exact execSubtasks_messages_mono agents env _ _ _ _ (by simp [addMessage])
        | error e =>
          exact execSubtasks_messages_mono agents env _ _ _ _ (by simp [addMessage])
    · rw [execSubtasks]
      cases hf : agents.find? (fun a => a.copilotId = sub.agent_id) with
      | none => exact ih _ _ j s' h
      | some info =>
        cases hr : env.agentResult idx sub with
        | ok resp => exact ih _ _ j s' h
        | error e => exact ih _ _ j s' h

theorem execSubtasks_dangling_message (agents : List CrewAgentInfo)
    (env : ExecEnv) :
    ∀ (l : List (Nat × Subtask)) (st : ExecState) (outs : List SubtaskOutcome)
      (j : Nat) (sub : Subtask), (j, sub) ∈ l →
      agents.find? (fun a => a.copilotId = sub.agent_id) = none →
      (⟨danglingAgentMessage sub.agent_id, true, none⟩ : TaskMessage) ∈
        (execSubtasks agents env l st outs).1.messages := by
  intro l
  induction l with
  | nil => intro st outs j sub hm _; simp at hm
  | cons p rest ih =>
    intro st outs j sub hm hf
    obtain ⟨idx, sub'⟩ := p
    rcases List.mem_cons.mp hm with h | h
    · have h1 : j = idx := congrArg Prod.fst h
      have h2 : sub = sub' := congrArg Prod.snd h
      rw [h2] at hf
      rw [h2, execSubtasks, hf]
      exact execSubtasks_messages_mono agents env _ _ _ _ (by simp [addMessage])
    · rw [execSubtasks]
      cases hf' : agents.find? (fun a => a.copilotId = sub'.agent_id) with
      | none => exact ih _ _ j sub h hf
      | some info =>
        cases hr : env.agentResult idx sub' with
        | ok resp => exact ih _ _ j sub h hf
        | error e => exact ih _ _ j sub h hf

theorem execSubtasks_outcomes_indep (agents : List CrewAgentInfo)
    (env : ExecEnv) :
    ∀ (l : List (Nat × Subtask)) (st st' : ExecState)
      (outs : List SubtaskOutcome),
      (execSubtasks agents env l st outs).2 =
        (execSubtasks agents env l st' outs).2 := by
  intro l
  induction l with
  | nil => intro st st' outs; rfl
  | cons p rest ih =>
    intro st st' outs
    obtain ⟨idx, sub⟩ := p
    rw [execSubtasks, execSubtasks]
    cases hf : agents.find? (fun a => a.copilotId = sub.agent_id) with
    | none => exact ih _ _ outs
    | some info =>
      cases hr : env.agentResult idx sub with
      | ok resp => exact ih _ _ _
      | error e => exact ih _ _ outs

theorem execSubtasks_preserves (agents : List CrewAgentInfo) (env : ExecEnv) :
    ∀ (l : List (Nat × Subtask)) (st : ExecState) (outs : List SubtaskOutcome),
      (execSubtasks agents env l st outs).1.statusTrace = st.statusTrace ∧
      (execSubtasks agents env l st outs).1.status = st.status ∧
      (execSubtasks agents env l st outs).1.error = st.error ∧
      (execSubtasks agents env l st outs).1.result = st.result ∧
      (execSubtasks agents env l st outs).1.plannerCalls = st.plannerCalls ∧
      (execSubtasks agents env l st outs).1.aggregatorCalls =
        st.aggregatorCalls := by
  intro l
  induction l with
  | nil => intro st outs; exact ⟨rfl, rfl, rfl, rfl, rfl, rfl⟩
  | cons p rest ih =>
    intro st outs
    obtain ⟨idx, sub⟩ := p
    rw [execSubtasks]
    cases hf : agents.find? (fun a => a.copilotId = sub.agent_id) with
    | none => simpa [addMessage] using ih _ _
    | some info =>
      cases hr : env.agentResult idx sub with
      | ok resp => simpa [addMessage] using ih _ _
      | error e => simpa [addMessage] using ih _ _

/-- Claim C4: a task's status is assigned in the order PENDING (initial) →
IN_PROGRESS → exactly one terminal state (COMPLETED or FAILED), never
revisited, with the final status equal to the last assignment; any unhandled
exception drives the task to FAILED, records the error text both in the
error field and as an `Error: ...` system message, and is re-raised to the
caller unchanged; the planner and aggregator calls are never retried (each
happens at most once per execution). -/
theorem task_status_machine (agents : List CrewAgentInfo) (title desc : String)
    (env : ExecEnv) (e : String) :
    ((execute_task agents title desc env).1.statusTrace =
        [PyTaskStatus.in_progress, PyTaskStatus.completed] ∨
      (execute_task agents title desc env).1.statusTrace =
        [PyTaskStatus.in_progress, PyTaskStatus.failed]) ∧
    (execute_task agents title desc env).1.statusTrace.getLast? =
        some (execute_task agents title desc env).1.status ∧
    ((execute_task agents title desc env).2 = Except.error e →
      (execute_task agents title desc env).1.status = PyTaskStatus.failed ∧
      (execute_task agents title desc env).1.error = some e ∧
      (⟨"Error: " ++ e, true, none⟩ : TaskMessage) ∈
        (execute_task agents title desc env).1.messages) ∧
    (execute_task agents title desc env).1.plannerCalls ≤ 1 ∧
    (execute_task agents title desc env).1.aggregatorCalls ≤ 1 := by
  cases hsetup : env.setupResult with
  | error e₀ =>
    have hred : execute_task agents title desc env =
        (handleTaskError (startState title) e₀, Except.error e₀) := by
      unfold execute_task
      rw [hsetup]
    rw [hred]
    refine ⟨Or.inr (by simp [handleTaskError, startState, addMessage,
        setStatus, initialExecState]),
      by simp [handleTaskError, startState, addMessage, setStatus,
        initialExecState],
      ?_,
      by simp [handleTaskError, startState, addMessage, setStatus,
        initialExecState],
      by simp [handleTaskError, startState, addMessage, setStatus,
        initialExecState]⟩
    intro hres
    have he : e₀ = e := by simpa using hres
    subst he
    exact ⟨by simp [handleTaskError, startState, addMessage, setStatus,
        initialExecState],
      by simp [handleTaskError, startState, addMessage, setStatus,
        initialExecState],
      by simp [handleTaskError, startState, addMessage, setStatus,
        initialExecState]⟩
  | ok u =>
    cases hplanner : env.plannerResult with
    | error e₀ =>
      have hred : execute_task agents title desc env =
          (handleTaskError (afterPlannerCall title) e₀, Except.error e₀) := by
        unfold execute_task
        rw [hsetup]
        dsimp only
        rw [hplanner]
      rw [hred]
      refine ⟨Or.inr (by simp [handleTaskError, afterPlannerCall, startState,
          addMessage, setStatus, initialExecState]),
        by simp [handleTaskError, afterPlannerCall, startState, addMessage,
          setStatus, initialExecState],
        ?_,
        by simp [handleTaskError, afterPlannerCall, startState, addMessage,
          setStatus, initialExecState],
        by simp [handleTaskError, afterPlannerCall, startState, addMessage,
          setStatus, initialExecState]⟩
      intro hres
      have he : e₀ = e := by simpa using hres
      subst he
      exact ⟨by simp [handleTaskError, afterPlannerCall, startState,
          addMessage, setStatus, initialExecState],
        by simp [handleTaskError, afterPlannerCall, startState, addMessage,
          setStatus, initialExecState],
        by simp [handleTaskError, afterPlannerCall, startState, addMessage,
          setStatus, initialExecState]⟩
    | ok plannerStr =>
      cases hchain : parsePlanChain env.jloads plannerStr desc
          (agents.map (fun a => a.copilotId)) with
      | error e₀ =>
        have hred : execute_task agents title desc env =
            (handleTaskError (afterPlannerCall title) e₀, Except.error e₀) := by
          unfold execute_task
          rw [hsetup]
          dsimp only
          rw [hplanner]
          dsimp only
          rw [hchain]
        rw [hred]
        refine ⟨Or.inr (by simp [handleTaskError, afterPlannerCall, startState,
            addMessage, setStatus, initialExecState]),
          by simp [handleTaskError, afterPlannerCall, startState, addMessage,
            setStatus, initialExecState],
          ?_,
          by simp [handleTaskError, afterPlannerCall, startState, addMessage,
            setStatus, initialExecState],
          by simp [handleTaskError, afterPlannerCall, startState, addMessage,
            setStatus, initialExecState]⟩
        intro hres
        have he : e₀ = e := by simpa using hres
        subst he
        exact ⟨by simp [handleTaskError, afterPlannerCall, startState,
            addMessage, setStatus, initialExecState],
          by simp [handleTaskError, afterPlannerCall, startState, addMessage,
            setStatus, initialExecState],
          by simp [handleTaskError, afterPlannerCall, startState, addMessage,
            setStatus, initialExecState]⟩
      | ok plan =>
        rcases hstep : execSubtasks agents env plan.plan.enum
            (afterPlanMessage title plan) [] with ⟨st1, outs⟩
        have hpres := execSubtasks_preserves agents env plan.plan.enum
          (afterPlanMessage title plan) []
        rw [hstep] at hpres
        simp only [afterPlanMessage, afterPlannerCall, startState, addMessage,
          setStatus, initialExecState] at hpres
        obtain ⟨ht, hs, herr, hres', hpc, hac⟩ := hpres
        cases outs with
        | nil =>
          have hred : execute_task agents title desc env =
              (zeroOutcomeFinish title st1, Except.ok ()) := by
            unfold execute_task
            rw [hsetup]
            dsimp only
            rw [hplanner]
            dsimp only
            rw [hchain]
            dsimp only
            rw [hstep]
          rw [hred]
          refine ⟨Or.inr ?_, ?_, ?_, ?_, ?_⟩
          · simp [zeroOutcomeFinish, addMessage, setStatus, ht]
          · simp [zeroOutcomeFinish, addMessage, setStatus]
          · intro hres
            simp at hres
          · simp [zeroOutcomeFinish, addMessage, setStatus, hpc]
          · simp [zeroOutcomeFinish, addMessage, setStatus, hac]
        | cons o os =>
          cases haggr : env.aggregatorResult with
          | error e₀ =>
            have hred : execute_task agents title desc env =
                (handleTaskError (beforeAggregator st1) e₀, Except.error e₀) := by
              unfold execute_task
              rw [hsetup]
              dsimp only
              rw [hplanner]
              dsimp only
              rw [hchain]
              dsimp only
              rw [hstep]
              dsimp only
              rw [haggr]
            rw [hred]
            refine ⟨Or.inr ?_, ?_, ?_, ?_, ?_⟩
            · simp [handleTaskError, beforeAggregator, addMessage, setStatus, ht]
            · simp [handleTaskError, beforeAggregator, addMessage, setStatus]
            · intro hres
              have he : e₀ = e := by simpa using hres
              subst he
              exact ⟨by simp [handleTaskError, beforeAggregator, addMessage,
                  setStatus],
                by simp [handleTaskError, beforeAggregator, addMessage,
                  setStatus],
                by simp [handleTaskError, beforeAggregator, addMessage,
                  setStatus]⟩
            · simp [handleTaskError, beforeAggregator, addMessage, setStatus,
                hpc]
            · simp [handleTaskError, beforeAggregator, addMessage, setStatus,
                hac]
          | ok agg =>
            have hred : execute_task agents title desc env =
                (completedFinish title agg (o :: os) (beforeAggregator st1),
                  Except.ok ()) := by
              unfold execute_task
              rw [hsetup]
              dsimp only
              rw [hplanner]
              dsimp only
              rw [hchain]
              dsimp only
              rw [hstep]
              dsimp only
              rw [haggr]
            rw [hred]
            refine ⟨Or.inl ?_, ?_, ?_, ?_, ?_⟩
            · simp [completedFinish, beforeAggregator, addMessage, setStatus, ht]
            · simp [completedFinish, beforeAggregator, addMessage, setStatus]
            · intro hres
              simp at hres
            · simp [completedFinish, beforeAggregator, addMessage, setStatus,
                hpc]
            · simp [completedFinish, beforeAggregator, addMessage, setStatus,
                hac]

theorem task_status_machine_witness :
    ((execute_task [] "T" "D" envPlannerBoom).1.statusTrace =
        [PyTaskStatus.in_progress, PyTaskStatus.completed] ∨
      (execute_task [] "T" "D" envPlannerBoom).1.statusTrace =
        [PyTaskStatus.in_progress, PyTaskStatus.failed]) ∧
    (execute_task [] "T" "D" envPlannerBoom).1.status = PyTaskStatus.failed ∧
    (execute_task [] "T" "D" envPlannerBoom).1.error = some "boom" ∧
    (⟨"Error: " ++ "boom", true, none⟩ : TaskMessage) ∈
      (execute_task [] "T" "D" envPlannerBoom).1.messages :=
  ⟨(task_status_machine [] "T" "D" envPlannerBoom "boom").1,
   ((task_status_machine [] "T" "D" envPlannerBoom "boom").2.2.1 rfl).1,
   ((task_status_machine [] "T" "D" envPlannerBoom "boom").2.2.1 rfl).2.1,
   ((task_status_machine [] "T" "D" envPlannerBoom "boom").2.2.1 rfl).2.2⟩

theorem execute_task_ok_failed_unique (agents : List CrewAgentInfo)
    (title desc : String) (env : ExecEnv) :
    (execute_task agents title desc env).2 = Except.ok () →
    (execute_task agents title desc env).1.status = PyTaskStatus.failed →
    (execute_task agents title desc env).1.error = some noResponsesError := by
  cases hsetup : env.setupResult with
  | error e₀ =>
    have hred : execute_task agents title desc env =
        (handleTaskError (startState title) e₀, Except.error e₀) := by
      unfold execute_task
      rw [hsetup]
    intro h1
    rw [hred] at h1
    simp at h1
  | ok u =>
    cases hplanner : env.plannerResult with
    | error e₀ =>
      have hred : execute_task agents title desc env =
          (handleTaskError (afterPlannerCall title) e₀, Except.error e₀) := by
        unfold execute_task
        rw [hsetup]
        dsimp only
        rw [hplanner]
      intro h1
      rw [hred] at h1
      simp at h1
    | ok plannerStr =>
      cases hchain : parsePlanChain env.jloads plannerStr desc
          (agents.map (fun a => a.copilotId)) with
      | error e₀ =>
        have hred : execute_task agents title desc env =
            (handleTaskError (afterPlannerCall title) e₀, Except.error e₀) := by
          unfold execute_task
          rw [hsetup]
          dsimp only
          rw [hplanner]
          dsimp only
          rw [hchain]
        intro h1
        rw [hred] at h1
        simp at h1
      | ok plan =>
        rcases hstep : execSubtasks agents env plan.plan.enum
            (afterPlanMessage title plan) [] with ⟨st1, outs⟩
        cases outs with
        | nil =>
          have hred : execute_task agents title desc env =
              (zeroOutcomeFinish title st1, Except.ok ()) := by
            unfold execute_task
            rw [hsetup]
            dsimp only
            rw [hplanner]
            dsimp only
            rw [hchain]
            dsimp only
            rw [hstep]
          intro _ _
          rw [hred]
          simp [zeroOutcomeFinish, addMessage, setStatus]
        | cons o os =>
          cases haggr : env.aggregatorResult with
          | error e₀ =>
            have hred : execute_task agents title desc env =
                (handleTaskError (beforeAggregator st1) e₀, Except.error e₀) := by
              unfold execute_task
              rw [hsetup]
              dsimp only
              rw [hplanner]
              dsimp only
              rw [hchain]
              dsimp only
              rw [hstep]
              dsimp only
              rw [haggr]
            intro h1
            rw [hred] at h1
            simp at h1
          | ok agg =>
            have hred : execute_task agents title desc env =
                (completedFinish title agg (o :: os) (beforeAggregator st1),
                  Except.ok ()) := by
              unfold execute_task
              rw [hsetup]
              dsimp only
              rw [hplanner]
              dsimp only
              rw [hchain]
              dsimp only
              rw [hstep]
              dsimp only
              rw [haggr]
            intro _ h2
            rw [hred] at h2
            simp [completedFinish, beforeAggregator, addMessage, setStatus] at h2

/-- Claim C5: a run in which subtask execution collects zero outcomes (for
example, the crew's single agent call raised a protocol error caught
per-subtask) terminates without raising, in status FAILED with error text
exactly "No agent responses were collected" — and this is the only failure
path not driven by an exception: every non-raising run that ends FAILED
carries exactly that error text. -/
theorem zero_outcomes_failed (agents : List CrewAgentInfo)
    (title desc plannerStr : String) (env : ExecEnv) (plan : Plan)
    (hsetup : env.setupResult = Except.ok ())
    (hplanner : env.plannerResult = Except.ok plannerStr)
    (hchain : parsePlanChain env.jloads plannerStr desc
        (agents.map (fun a => a.copilotId)) = Except.ok plan)
    (houts : collectOutcomes agents env plan.plan.enum = []) :
    (execute_task agents title desc env).1.status = PyTaskStatus.failed ∧
    (execute_task agents title desc env).1.error = some noResponsesError ∧
    (execute_task agents title desc env).2 = Except.ok () ∧
    (∀ env' : ExecEnv, (execute_task agents title desc env').2 = Except.ok () →
      (execute_task agents title desc env').1.status = PyTaskStatus.failed →
      (execute_task agents title desc env').1.error = some noResponsesError) := by
  rcases hstep : execSubtasks agents env plan.plan.enum
      (afterPlanMessage title plan) [] with ⟨st1, outs⟩
  have houts' : outs = [] := by
    have := execSubtasks_outcomes_indep agents env plan.plan.enum
      (afterPlanMessage title plan) initialExecState []
    rw [hstep] at this
    rw [← collectOutcomes] at this
    simpa [houts] using this
  subst houts'
  have hred : execute_task agents title desc env =
      (zeroOutcomeFinish title st1, Except.ok ()) := by
    unfold execute_task
    rw [hsetup]
    dsimp only
    rw [hplanner]
    dsimp only
    rw [hchain]
    dsimp only
    rw [hstep]
  rw [hred]
  refine ⟨by simp [zeroOutcomeFinish, addMessage, setStatus],
    by simp [zeroOutcomeFinish, addMessage, setStatus], rfl, ?_⟩
  intro env' h1 h2
  exact execute_task_ok_failed_unique agents title desc env' h1 h2

theorem zero_outcomes_failed_witness :
    (execute_task [protoAgent] "T" "D" envProtoError).1.status =
        PyTaskStatus.failed ∧
    (execute_task [protoAgent] "T" "D" envProtoError).1.error =
        some noResponsesError ∧
    (execute_task [protoAgent] "T" "D" envProtoError).2 = Except.ok () :=
  ⟨(zero_outcomes_failed [protoAgent] "T" "D" "PLAN_B" envProtoError protoPlan
      rfl rfl rfl (by decide)).1,
   (zero_outcomes_failed [protoAgent] "T" "D" "PLAN_B" envProtoError protoPlan
      rfl rfl rfl (by decide)).2.1,
   (zero_outcomes_failed [protoAgent] "T" "D" "PLAN_B" envProtoError protoPlan
      rfl rfl rfl (by decide)).2.2.1⟩

/-- Claim C8: a subtask naming an agent id outside the crew yields only a
non-fatal `Error: Agent with ID ... not found in crew` message: the run does
not raise, every subtask in the plan still receives its
`Executing subtask ...` message (all are attempted, in order), and whenever
any outcomes were collected they reach aggregation — the task completes with
exactly those outcomes as the result details. -/
theorem dangling_agent_nonfatal (agents : List CrewAgentInfo)
    (title desc agg plannerStr : String) (env : ExecEnv) (plan : Plan)
    (j : Nat) (sub : Subtask)
    (hsetup : env.setupResult = Except.ok ())
    (hplanner : env.plannerResult = Except.ok plannerStr)
    (hchain : parsePlanChain env.jloads plannerStr desc
        (agents.map (fun a => a.copilotId)) = Except.ok plan)
    (hdang : (j, sub) ∈ plan.plan.enum)
    (hfind : agents.find? (fun a => a.copilotId = sub.agent_id) = none)
    (haggr : env.aggregatorResult = Except.ok agg) :
    (⟨danglingAgentMessage sub.agent_id, true, none⟩ : TaskMessage) ∈
      (execute_task agents title desc env).1.messages ∧
    (execute_task agents title desc env).2 = Except.ok () ∧
    (∀ (k : Nat) (s' : Subtask), (k, s') ∈ plan.plan.enum →
      (⟨subtaskStartMessage k s'.subtask, true, none⟩ : TaskMessage) ∈
        (execute_task agents title desc env).1.messages) ∧
    (collectOutcomes agents env plan.plan.enum ≠ [] →
      (execute_task agents title desc env).1.status = PyTaskStatus.completed ∧
      (execute_task agents title desc env).1.result =
        some (agg, collectOutcomes agents env plan.plan.enum)) := by
  rcases hstep : execSubtasks agents env plan.plan.enum
      (afterPlanMessage title plan) [] with ⟨st1, outs⟩
  have houts : collectOutcomes agents env plan.plan.enum = outs := by
    have := execSubtasks_outcomes_indep agents env plan.plan.enum
      initialExecState (afterPlanMessage title plan) []
    rw [hstep] at this
    rw [collectOutcomes]
    simpa using this
  have hdmem : (⟨danglingAgentMessage sub.agent_id, true, none⟩ : TaskMessage) ∈
      st1.messages := by
    have := execSubtasks_dangling_message agents env plan.plan.enum
      (afterPlanMessage title plan) [] j sub hdang hfind
    rw [hstep] at this
    simpa using this
  have hsmem : ∀ (k : Nat) (s' : Subtask), (k, s') ∈ plan.plan.enum →
      (⟨subtaskStartMessage k s'.subtask, true, none⟩ : TaskMessage) ∈
        st1.messages := by
    intro k s' hk
    have := execSubtasks_start_message agents env plan.plan.enum
      (afterPlanMessage title plan) [] k s' hk
    rw [hstep] at this
    simpa using this
  cases outs with
  | nil =>
    have hred : execute_task agents title desc env =
        (zeroOutcomeFinish title st1, Except.ok ()) := by
      unfold execute_task
      rw [hsetup]
      dsimp only
      rw [hplanner]
      dsimp only
      rw [hchain]
      dsimp only
      rw [hstep]
    rw [hred]
    refine ⟨by simp [zeroOutcomeFinish, addMessage, setStatus, hdmem],
      rfl, ?_, ?_⟩
    · intro k s' hk
      simp [zeroOutcomeFinish, addMessage, setStatus, hsmem k s' hk]
    · intro hne
      exact absurd houts hne
  | cons o os =>
    have hred : execute_task agents title desc env =
        (completedFinish title agg (o :: os) (beforeAggregator st1),
          Except.ok ()) := by
      unfold execute_task
      rw [hsetup]
      dsimp only
      rw [hplanner]
      dsimp only
      rw [hchain]
      dsimp only
      rw [hstep]
      dsimp only
      rw [haggr]
    rw [hred]
    refine ⟨by simp [completedFinish, beforeAggregator, addMessage, setStatus,
        hdmem], rfl, ?_, ?_⟩
    · intro k s' hk
      simp [completedFinish, beforeAggregator, addMessage, setStatus,
        hsmem k s' hk]
    · intro _
      rw [houts]
      exact ⟨by simp [completedFinish, beforeAggregator, addMessage, setStatus],
        by simp [completedFinish, beforeAggregator, addMessage, setStatus]⟩

theorem dangling_agent_nonfatal_witness :
    (⟨danglingAgentMessage "ghost", true, none⟩ : TaskMessage) ∈
      (execute_task c8Agents "T" "D" c8Env).1.messages ∧
    (execute_task c8Agents "T" "D" c8Env).2 = Except.ok () ∧
    (⟨subtaskStartMessage 1 "second", true, none⟩ : TaskMessage) ∈
      (execute_task c8Agents "T" "D" c8Env).1.messages ∧
    (execute_task c8Agents "T" "D" c8Env).1.status = PyTaskStatus.completed ∧
    (execute_task c8Agents "T" "D" c8Env).1.result =
      some ("final", collectOutcomes c8Agents c8Env c8Plan.plan.enum) :=
  ⟨(dangling_agent_nonfatal c8Agents "T" "D" "final" "PLAN_C" c8Env c8Plan 0
      ⟨"first", "ghost", "dangling"⟩ rfl rfl rfl (by decide)
      (by decide) rfl).1,
   (dangling_agent_nonfatal c8Agents "T" "D" "final" "PLAN_C" c8Env c8Plan 0
      ⟨"first", "ghost", "dangling"⟩ rfl rfl rfl (by decide)
      (by decide) rfl).2.1,
   (dangling_agent_nonfatal c8Agents "T" "D" "final" "PLAN_C" c8Env c8Plan 0
      ⟨"first", "ghost", "dangling"⟩ rfl rfl rfl (by decide)
      (by decide) rfl).2.2.1 1 ⟨"second", "cop-9", "valid"⟩ (by decide),
   ((dangling_agent_nonfatal c8Agents "T" "D" "final" "PLAN_C" c8Env c8Plan 0
      ⟨"first", "ghost", "dangling"⟩ rfl rfl rfl (by decide)
      (by decide) rfl).2.2.2 (by decide)).1,
   ((dangling_agent_nonfatal c8Agents "T" "D" "final" "PLAN_C" c8Env c8Plan 0
      ⟨"first", "ghost", "dangling"⟩ rfl rfl rfl (by decide)
      (by decide) rfl).2.2.2 (by decide)).2⟩

theorem KInv_kinit (crews : List Nat) : KInv (kinit crews) := by
  have htask : ∀ tid t, (kinit crews).tasks tid = some t → t.pc = KPC.start := by
    intro tid t ht
    simp only [kinit] at ht
    cases hcg : crews.get? tid with
    | none => rw [hcg] at ht; simp at ht
    | some c =>
        rw [hcg] at ht
        simp at ht
        rw [← ht]
  refine ⟨?_, ?_, ?_, ?_, ?_, ?_⟩
  · intro c
    simp [kinit, dictGet?]
  · intro tid t k ht hpc
    rw [htask tid t ht] at hpc
    simp at hpc
  · intro tid t ht hpc
    rcases hpc with h | h <;> rw [htask tid t ht] at h <;> simp at h
  · intro c tid h
    simp [kinit, dictGet?] at h
  · intro tid t ht hpc
    rw [htask tid t ht] at hpc
    simp at hpc
  · intro tid t ht hpc
    rw [htask tid t ht] at hpc
    simp at hpc

theorem setTaskPC_tasks (cfg : RegState) (tid crew : Nat) (pc : KPC)
    (tid' : Nat) :
    (setTaskPC cfg tid crew pc).tasks tid' =
      if tid' = tid then some ⟨crew, pc⟩ else cfg.tasks tid' := rfl

theorem KInv_kstep (cfg : RegState) (tid : Nat) (h : KInv cfg) :
    KInv (kstep cfg tid) := by
  obtain ⟨h1, h2, h3, h4, h5, h6⟩ := h
  unfold kstep
  cases hget : cfg.tasks tid with
  | none => exact ⟨h1, h2, h3, h4, h5, h6⟩
  | some t =>
    dsimp only
    cases hpc : t.pc with
    | done k => exact ⟨h1, h2, h3, h4, h5, h6⟩
    | start =>
      cases hk : dictGet? cfg.kernels t.crew with
      | some k =>
        dsimp only
        refine ⟨h1, ?_, ?_, ?_, ?_, ?_⟩
        · intro tid' t' k' hget' hpc'
          rw [setTaskPC_tasks] at hget'
          by_cases he : tid' = tid
          · rw [if_pos he] at hget'
            injection hget' with hh
            rw [← hh] at hpc'
            simp only at hpc'
            injection hpc' with hk'
            rw [← hh]
            simp only [setTaskPC]
            rw [← hk']
            exact hk
          · rw [if_neg he] at hget'
            exact h2 tid' t' k' hget' hpc'
        · intro tid' t' hget' hreg
          rw [setTaskPC_tasks] at hget'
          by_cases he : tid' = tid
          · rw [if_pos he] at hget'
            injection hget' with hh
            rw [← hh] at hreg
            rcases hreg with h' | h' <;> simp at h'
          · rw [if_neg he] at hget'
            exact h3 tid' t' hget' hreg
        · intro c tid' hlock
          simp only [setTaskPC] at hlock
          rcases h4 c tid' hlock with ⟨t', hget', hcrew, hreg⟩
          by_cases he : tid' = tid
          · exfalso
            rw [he, hget] at hget'
            injection hget' with hh
            rcases hreg with h' | h' <;> rw [← hh, hpc] at h' <;> simp at h'
          · exact ⟨t', by rw [setTaskPC_tasks, if_neg he]; exact hget',
              hcrew, hreg⟩
        · intro tid' t' hget' hb
          rw [setTaskPC_tasks] at hget'
          by_cases he : tid' = tid
          · rw [if_pos he] at hget'
            injection hget' with hh
            rw [← hh] at hb
            simp at hb
          · rw [if_neg he] at hget'
            exact h5 tid' t' hget' hb
        · intro tid' t' hget' hw
          rw [setTaskPC_tasks] at hget'
          by_cases he : tid' = tid
          · rw [if_pos he] at hget'
            injection hget' with hh
            rw [← hh] at hw
            simp at hw
          · rw [if_neg he] at hget'
            exact h6 tid' t' hget' hw
      | none =>
        cases hl : dictGet? cfg.locks t.crew with
        | none =>
          dsimp only
          refine ⟨h1, ?_, ?_, ?_, ?_, ?_⟩
          · intro tid' t' k' hget' hpc'
            rw [setTaskPC_tasks] at hget'
            by_cases he : tid' = tid
            · rw [if_pos he] at hget'
              injection hget' with hh
              rw [← hh] at hpc'
              simp at hpc'
            · rw [if_neg he] at hget'
              exact h2 tid' t' k' hget' hpc'
          · intro tid' t' hget' hreg
            rw [setTaskPC_tasks] at hget'
            by_cases he : tid' = tid
            · rw [if_pos he] at hget'
              injection hget' with hh
              rw [← hh] at hreg
              rcases hreg with h' | h' <;> simp at h'
            · rw [if_neg he] at hget'
              have hold := h3 tid' t' hget' hreg
              simp only [setTaskPC]
              by_cases hc : t'.crew = t.crew
              · exfalso
                rw [hc, hl] at hold
                simp at hold
              · rw [dictGet?_dictInsert_ne _ _ _ _ hc]
                exact hold
          · intro c tid' hlock
            simp only [setTaskPC] at hlock
            by_cases hc : c = t.crew
            · exfalso
              rw [hc, dictGet?_dictInsert_self] at hlock
              simp at hlock
            · rw [dictGet?_dictInsert_ne _ _ _ _ hc] at hlock
              rcases h4 c tid' hlock with ⟨t', hget', hcrew, hreg⟩
              by_cases he : tid' = tid
              · exfalso
                rw [he, hget] at hget'
                injection hget' with hh
                rcases hreg with h' | h' <;> rw [← hh, hpc] at h' <;>
                  simp at h'
              · exact ⟨t', by rw [setTaskPC_tasks, if_neg he]; exact hget',
                  hcrew, hreg⟩
          · intro tid' t' hget' hb
            rw [setTaskPC_tasks] at hget'
            by_cases he : tid' = tid
            · rw [if_pos he] at hget'
              injection hget' with hh
              rw [← hh] at hb
              simp at hb
            · rw [if_neg he] at hget'
              exact h5 tid' t' hget' hb
          · intro tid' t' hget' hw
            rw [setTaskPC_tasks] at hget'
            simp only [setTaskPC]
            by_cases he : tid' = tid
            · rw [if_pos he] at hget'
              injection hget' with hh
              rw [← hh]
              simp only
              rw [dictGet?_dictInsert_self]
              rfl
            · rw [if_neg he] at hget'
              by_cases hc : t'.crew = t.crew
              · rw [hc, dictGet?_dictInsert_self]
                rfl
              · rw [dictGet?_dictInsert_ne _ _ _ _ hc]
                exact h6 tid' t' hget' hw
        | some s =>
          dsimp only
          refine ⟨h1, ?_, ?_, ?_, ?_, ?_⟩
          · intro tid' t' k' hget' hpc'
            rw [setTaskPC_tasks] at hget'
            by_cases he : tid' = tid
            · rw [if_pos he] at hget'
              injection hget' with hh
              rw [← hh] at hpc'
              simp at hpc'
            · rw [if_neg he] at hget'
              exact h2 tid' t' k' hget' hpc'
          · intro tid' t' hget' hreg
            rw [setTaskPC_tasks] at hget'
            by_cases he : tid' = tid
            · rw [if_pos he] at hget'
              injection hget' with hh
              rw [← hh] at hreg
              rcases hreg with h' | h' <;> simp at h'
            · rw [if_neg he] at hget'
              exact h3 tid' t' hget' hreg
          · intro c tid' hlock
            simp only [setTaskPC] at hlock
            rcases h4 c tid' hlock with ⟨t', hget', hcrew, hreg⟩
            by_cases he : tid' = tid
            · exfalso
              rw [he, hget] at hget'
              injection hget' with hh
              rcases hreg with h' | h' <;> rw [← hh, hpc] at h' <;> simp at h'
            · exact ⟨t', by rw [setTaskPC_tasks, if_neg he]; exact hget',
                hcrew, hreg⟩
          · intro tid' t' hget' hb
            rw [setTaskPC_tasks] at hget'
            by_cases he : tid' = tid
            · rw [if_pos he] at hget'
              injection hget' with hh
              rw [← hh] at hb
              simp at hb
            · rw [if_neg he] at hget'
              exact h5 tid' t' hget' hb
          · intro tid' t' hget' hw
            rw [setTaskPC_tasks] at hget'
            simp only [setTaskPC]
            by_cases he : tid' = tid
            · rw [if_pos he] at hget'
              injection hget' with hh
              rw [← hh]
              simp only
              rw [hl]
              rfl
            · rw [if_neg he] at hget'
              exact h6 tid' t' hget' hw
    | waitLock =>
      cases hl : dictGet? cfg.locks t.crew with
      | none => exact ⟨h1, h2, h3, h4, h5, h6⟩
      | some s =>
        cases s with
        | none =>
          dsimp only
          refine ⟨h1, ?_, ?_, ?_, ?_, ?_⟩
          · intro tid' t' k' hget' hpc'
            rw [setTaskPC_tasks] at hget'
            by_cases he : tid' = tid
            · rw [if_pos he] at hget'
              injection hget' with hh
              rw [← hh] at hpc'
              simp at hpc'
            · rw [if_neg he] at hget'
              exact h2 tid' t' k' hget' hpc'
          · intro tid' t' hget' hreg
            rw [setTaskPC_tasks] at hget'
            simp only [setTaskPC]
            by_cases he : tid' = tid
            · rw [if_pos he] at hget'
              injection hget' with hh
              rw [← hh]
              simp only
              rw [he, dictGet?_dictInsert_self]
            · rw [if_neg he] at hget'
              have hold := h3 tid' t' hget' hreg
              by_cases hc : t'.crew = t.crew
              · exfalso
                rw [hc, hl] at hold
                simp at hold
              · rw [dictGet?_dictInsert_ne _ _ _ _ hc]
                exact hold
          · intro c tid' hlock
            simp only [setTaskPC] at hlock
            by_cases hc : c = t.crew
            · rw [hc, dictGet?_dictInsert_self] at hlock
              injection hlock with hh
              injection hh with hh'
              refine ⟨⟨t.crew, KPC.lockedCheck⟩, ?_, hc.symm, Or.inl rfl⟩
              rw [setTaskPC_tasks, if_pos hh'.symm]
            · rw [dictGet?_dictInsert_ne _ _ _ _ hc] at hlock
              rcases h4 c tid' hlock with ⟨t', hget', hcrew, hreg⟩
              by_cases he : tid' = tid
              · exfalso
                rw [he, hget] at hget'
                injection hget' with hh
                rcases hreg with h' | h' <;> rw [← hh, hpc] at h' <;>
                  simp at h'
              · exact ⟨t', by rw [setTaskPC_tasks, if_neg he]; exact hget',
                  hcrew, hreg⟩
          · intro tid' t' hget' hb
            rw [setTaskPC_tasks] at hget'
            by_cases he : tid' = tid
            · rw [if_pos he] at hget'
              injection hget' with hh
              rw [← hh] at hb
              simp at hb
            · rw [if_neg he] at hget'
              exact h5 tid' t' hget' hb
          · intro tid' t' hget' hw
            rw [setTaskPC_tasks] at hget'
            simp only [setTaskPC]
            by_cases he : tid' = tid
            · rw [if_pos he] at hget'
              injection hget' with hh
              rw [← hh] at hw
              simp at hw
            · rw [if_neg he] at hget'
              by_cases hc : t'.crew = t.crew
              · rw [hc, dictGet?_dictInsert_self]
                rfl
              · rw [dictGet?_dictInsert_ne _ _ _ _ hc]
                exact h6 tid' t' hget' hw
        | some tid₀ => exact ⟨h1, h2, h3, h4, h5, h6⟩
    | lockedCheck =>
      cases hk : dictGet? cfg.kernels t.crew with
      | some k =>
        dsimp only
        refine ⟨h1, ?_, ?_, ?_, ?_, ?_⟩
        · intro tid' t' k' hget' hpc'
          rw [setTaskPC_tasks] at hget'
          simp only [setTaskPC]
          by_cases he : tid' = tid
          · rw [if_pos he] at hget'
            injection hget' with hh
            rw [← hh] at hpc'
            simp only at hpc'
            injection hpc' with hk'
            rw [← hh]
            simp only
            rw [← hk']
            exact hk
          · rw [if_neg he] at hget'
            exact h2 tid' t' k' hget' hpc'
        · intro tid' t' hget' hreg
          rw [setTaskPC_tasks] at hget'
          simp only [setTaskPC]
          by_cases he : tid' = tid
          · rw [if_pos he] at hget'
            injection hget' with hh
            rw [← hh] at hreg
            rcases hreg with h' | h' <;> simp at h'
          · rw [if_neg he] at hget'
            have hold := h3 tid' t' hget' hreg
            by_cases hc : t'.crew = t.crew
            · exfalso
              have hown := h3 tid t hget (Or.inl hpc)
              rw [hc] at hold
              rw [hold] at hown
              injection hown with hh
              injection hh with hh'
              exact he hh'
            · rw [dictGet?_dictInsert_ne _ _ _ _ hc]
              exact hold
        · intro c tid' hlock
          simp only [setTaskPC] at hlock
          by_cases hc : c = t.crew
          · exfalso
            rw [hc, dictGet?_dictInsert_self] at hlock
            simp at hlock
          · rw [dictGet?_dictInsert_ne _ _ _ _ hc] at hlock
            rcases h4 c tid' hlock with ⟨t', hget', hcrew, hreg⟩
            by_cases he : tid' = tid
            · exfalso
              rw [he, hget] at hget'
              injection hget' with hh
              rw [← hh] at hcrew
              exact hc hcrew.symm
            · exact ⟨t', by rw [setTaskPC_tasks, if_neg he]; exact hget',
                hcrew, hreg⟩
        · intro tid' t' hget' hb
          rw [setTaskPC_tasks] at hget'
          by_cases he : tid' = tid
          · rw [if_pos he] at hget'
            injection hget' with hh
            rw [← hh] at hb
            simp at hb
          · rw [if_neg he] at hget'
            exact h5 tid' t' hget' hb
        · intro tid' t' hget' hw
          rw [setTaskPC_tasks] at hget'
          simp only [setTaskPC]
          by_cases he : tid' = tid
          · rw [if_pos he] at hget'
            injection hget' with hh
            rw [← hh] at hw
            simp at hw
          · rw [if_neg he] at hget'
            by_cases hc : t'.crew = t.crew
            · rw [hc, dictGet?_dictInsert_self]
              rfl
            · rw [dictGet?_dictInsert_ne _ _ _ _ hc]
              exact h6 tid' t' hget' hw
      | none =>
        dsimp only
        refine ⟨h1, ?_, ?_, ?_, ?_, ?_⟩
        · intro tid' t' k' hget' hpc'
          rw [setTaskPC_tasks] at hget'
          by_cases he : tid' = tid
          · rw [if_pos he] at hget'
            injection hget' with hh
            rw [← hh] at hpc'
            simp at hpc'
          · rw [if_neg he] at hget'
            exact h2 tid' t' k' hget' hpc'
        · intro tid' t' hget' hreg
          rw [setTaskPC_tasks] at hget'
          simp only [setTaskPC]
          by_cases he : tid' = tid
          · rw [if_pos he] at hget'
            injection hget' with hh
            rw [← hh]
            simp only
            rw [he]
            exact h3 tid t hget (Or.inl hpc)
          · rw [if_neg he] at hget'
            exact h3 tid' t' hget' hreg
        · intro c tid' hlock
          simp only [setTaskPC] at hlock
          rcases h4 c tid' hlock with ⟨t', hget', hcrew, hreg⟩
          by_cases he : tid' = tid
          · refine ⟨⟨t.crew, KPC.building⟩, ?_, ?_, Or.inr rfl⟩
            · rw [setTaskPC_tasks, if_pos he]
            · rw [he, hget] at hget'
              injection hget' with hh
              rw [← hh] at hcrew
              exact hcrew
          · exact ⟨t', by rw [setTaskPC_tasks, if_neg he]; exact hget',
              hcrew, hreg⟩
        · intro tid' t' hget' hb
          rw [setTaskPC_tasks] at hget'
          simp only [setTaskPC]
          by_cases he : tid' = tid
          · rw [if_pos he] at hget'
            injection hget' with hh
            rw [← hh]
            simp only
            exact hk
          · rw [if_neg he] at hget'
            exact h5 tid' t' hget' hb
        · intro tid' t' hget' hw
          rw [setTaskPC_tasks] at hget'
          by_cases he : tid' = tid
          · rw [if_pos he] at hget'
            injection hget' with hh
            rw [← hh] at hw
            simp at hw
          · rw [if_neg he] at hget'
            exact h6 tid' t' hget' hw
    | building =>
      dsimp only
      have hknone := h5 tid t hget hpc
      have hown := h3 tid t hget (Or.inr hpc)
      refine ⟨?_, ?_, ?_, ?_, ?_, ?_⟩
      · intro c
        simp only [setTaskPC]
        by_cases hc : c = t.crew
        · rw [hc, dictGet?_dictInsert_self]
          have := h1 t.crew
          rw [hknone] at this
          simp at this
          simp [List.count_append, List.count_singleton', this]
        · have hcount : (cfg.builds ++ [t.crew]).count c = cfg.builds.count c := by
            rw [List.count_append, List.count_singleton',
              if_neg (fun hcc => hc hcc.symm)]
            omega
          rw [hcount, dictGet?_dictInsert_ne _ _ _ _ hc]
          exact h1 c
      · intro tid' t' k' hget' hpc'
        rw [setTaskPC_tasks] at hget'
        simp only [setTaskPC]
        by_cases he : tid' = tid
        · rw [if_pos he] at hget'
          injection hget' with hh
          rw [← hh] at hpc'
          simp only at hpc'
          injection hpc' with hk'
          rw [← hh]
          simp only
          rw [← hk']
          exact dictGet?_dictInsert_self _ _ _
        · rw [if_neg he] at hget'
          have hold := h2 tid' t' k' hget' hpc'
          by_cases hc : t'.crew = t.crew
          · exfalso
            rw [hc, hknone] at hold
            simp at hold
          · rw [dictGet?_dictInsert_ne _ _ _ _ hc]
            exact hold
      · intro tid' t' hget' hreg
        rw [setTaskPC_tasks] at hget'
        simp only [setTaskPC]
        by_cases he : tid' = tid
        · rw [if_pos he] at hget'
          injection hget' with hh
          rw [← hh] at hreg
          rcases hreg with h' | h' <;> simp at h'
        · rw [if_neg he] at hget'
          have hold := h3 tid' t' hget' hreg
          by_cases hc : t'.crew = t.crew
          · exfalso
            rw [hc] at hold
            rw [hold] at hown
            injection hown with hh
            injection hh with hh'
            exact he hh'
          · rw [dictGet?_dictInsert_ne _ _ _ _ hc]
            exact hold
      · intro c tid' hlock
        simp only [setTaskPC] at hlock
        by_cases hc : c = t.crew
        · exfalso
          rw [hc, dictGet?_dictInsert_self] at hlock
          simp at hlock
        · rw [dictGet?_dictInsert_ne _ _ _ _ hc] at hlock
          rcases h4 c tid' hlock with ⟨t', hget', hcrew, hreg⟩
          by_cases he : tid' = tid
          · exfalso
            rw [he, hget] at hget'
            injection hget' with hh
            rw [← hh] at hcrew
            exact hc hcrew.symm
          · exact ⟨t', by rw [setTaskPC_tasks, if_neg he]; exact hget',
              hcrew, hreg⟩
      · intro tid' t' hget' hb
        rw [setTaskPC_tasks] at hget'
        simp only [setTaskPC]
        by_cases he : tid' = tid
        · rw [if_pos he] at hget'
          injection hget' with hh
          rw [← hh] at hb
          simp at hb
        · rw [if_neg he] at hget'
          have hold := h3 tid' t' hget' (Or.inr hb)
          by_cases hc : t'.crew = t.crew
          · exfalso
            rw [hc] at hold
            rw [hold] at hown
            injection hown with hh
            injection hh with hh'
            exact he hh'
          · rw [dictGet?_dictInsert_ne _ _ _ _ hc]
            exact h5 tid' t' hget' hb
      · intro tid' t' hget' hw
        rw [setTaskPC_tasks] at hget'
        simp only [setTaskPC]
        by_cases he : tid' = tid
        · rw [if_pos he] at hget'
          injection hget' with hh
          rw [← hh] at hw
          simp at hw
        · rw [if_neg he] at hget'
          by_cases hc : t'.crew = t.crew
          · rw [hc, dictGet?_dictInsert_self]
            rfl
          · rw [dictGet?_dictInsert_ne _ _ _ _ hc]
            exact h6 tid' t' hget' hw

theorem KInv_krun (sched : List Nat) :
    ∀ (cfg : RegState), KInv cfg → KInv (krun cfg sched) := by
  induction sched with
  | nil => intro cfg h; exact h
  | cons s rest ih =>
    intro cfg h
    rw [krun, List.foldl_cons]
    exact ih (kstep cfg s) (KInv_kstep cfg s h)

/-- Claim C1: under every interleaving of concurrent `get_crew_kernel`
callers starting from an empty registry, each crew id triggers at most one
`_create_kernel_for_crew` build; any two finished callers for the same crew
id received the same kernel instance; a finished caller's crew was built
exactly once, with its kernel the cached one; and whenever a waiting
caller's lock is held, the holder is a task for the same crew id — callers
for different crew ids never block each other. -/
theorem kernel_registry_concurrency (crews : List Nat) (sched : List Nat) :
    (∀ c : Nat, (krun (kinit crews) sched).builds.count c ≤ 1) ∧
    (∀ tid₁ tid₂ t₁ t₂ k₁ k₂,
      (krun (kinit crews) sched).tasks tid₁ = some t₁ →
      (krun (kinit crews) sched).tasks tid₂ = some t₂ →
      t₁.crew = t₂.crew → t₁.pc = KPC.done k₁ → t₂.pc = KPC.done k₂ →
      k₁ = k₂) ∧
    (∀ tid t k, (krun (kinit crews) sched).tasks tid = some t →
      t.pc = KPC.done k →
      (krun (kinit crews) sched).builds.count t.crew = 1 ∧
      dictGet? (krun (kinit crews) sched).kernels t.crew = some k) ∧
    (∀ tid t tid', (krun (kinit crews) sched).tasks tid = some t →
      t.pc = KPC.waitLock →
      dictGet? (krun (kinit crews) sched).locks t.crew = some (some tid') →
      ∃ t', (krun (kinit crews) sched).tasks tid' = some t' ∧
        t'.crew = t.crew) := by
  obtain ⟨h1, h2, h3, h4, h5, h6⟩ :=
    KInv_krun sched (kinit crews) (KInv_kinit crews)
  refine ⟨?_, ?_, ?_, ?_⟩
  · intro c
    rw [h1 c]
    split <;> omega
  · intro tid₁ tid₂ t₁ t₂ k₁ k₂ hg1 hg2 hcrew hp1 hp2
    have e1 := h2 tid₁ t₁ k₁ hg1 hp1
    have e2 := h2 tid₂ t₂ k₂ hg2 hp2
    rw [hcrew] at e1
    rw [e1] at e2
    injection e2
  · intro tid t k hg hp
    have e := h2 tid t k hg hp
    refine ⟨?_, e⟩
    rw [h1 t.crew, e]
    rfl
  · intro tid t tid' hg hw hlock
    rcases h4 t.crew tid' hlock with ⟨t', hg', hcrew', _⟩
    exact ⟨t', hg', hcrew'⟩

theorem kernel_registry_concurrency_witness :
    (krun (kinit [7, 7]) [0, 1, 0, 1, 0, 0, 1, 1]).builds.count 7 ≤ 1 ∧
    (krun (kinit [7, 7]) [0, 1, 0, 1, 0, 0, 1, 1]).builds.count 7 = 1 ∧
    dictGet? (krun (kinit [7, 7]) [0, 1, 0, 1, 0, 0, 1, 1]).kernels 7 =
      some 0 ∧
    (0 : Nat) = 0 :=
  ⟨(kernel_registry_concurrency [7, 7] [0, 1, 0, 1, 0, 0, 1, 1]).1 7,
   ((kernel_registry_concurrency [7, 7] [0, 1, 0, 1, 0, 0, 1, 1]).2.2.1 0
      ⟨7, KPC.done 0⟩ 0 (by decide) rfl).1,
   ((kernel_registry_concurrency [7, 7] [0, 1, 0, 1, 0, 0, 1, 1]).2.2.1 0
      ⟨7, KPC.done 0⟩ 0 (by decide) rfl).2,
   (kernel_registry_concurrency [7, 7] [0, 1, 0, 1, 0, 0, 1, 1]).2.1 0 1
      ⟨7, KPC.done 0⟩ ⟨7, KPC.done 0⟩ 0 0 (by decide) (by decide) rfl rfl rfl⟩

end Orchestration
